import Mathlib

/-!
# UrbanTales: password-reset pages and the seller product form

A shallow embedding of `Frontend/src/Pages/ResetPasswordConfirm.jsx`,
`Frontend/src/Pages/ResetPasswordOTP.jsx`,
`Frontend/src/seller/pages/SellerAddProduct.jsx` and the function `getInitials` of
`Frontend/src/Pages/editprofile.jsx` and `Frontend/src/Pages/profilepage.jsx`.

JavaScript strings whose characters the code inspects (passwords, the OTP field, URLs)
are lists of UTF-16 code units, so that `.length` and the regular expressions, which
work on code units, mean what they mean in JavaScript.  Message texts are only stored,
compared and tested for emptiness; they are Lean strings.
-/

/-- A JavaScript string, as its sequence of UTF-16 code units. -/
abbrev JSString := List Nat

/-- A string of Unicode scalar values (what `URLSearchParams.get` returns). -/
abbrev USVString := List Char

/-- The UTF-16 code units of one scalar value. -/
def utf16Char (c : Char) : List Nat :=
  if c.toNat < 65536 then [c.toNat]
  else [55296 + (c.toNat - 65536) / 1024, 56320 + (c.toNat - 65536) % 1024]

/-- The JavaScript string holding the given scalar values. -/
def utf16 (s : USVString) : JSString := s.flatMap utf16Char

/-- The JavaScript string of a literal. -/
def units (s : String) : JSString := utf16 s.toList

/-- Values a message can take: `data.msg` of a parsed JSON body is stored as it is. -/
inductive JsVal where
  | undefined
  | null
  | bool (b : Bool)
  | num (n : Int)
  | str (s : String)
  | object
  deriving DecidableEq, Repr

/-- JavaScript truthiness (`v || fallback`, `msg && ...`). -/
def JsVal.truthy : JsVal → Bool
  | .undefined => false
  | .null => false
  | .bool b => b
  | .num n => n != 0
  | .str s => s != ""
  | .object => true

/-- The body `await res.json()` yields: JSON `null`, on which reading `.msg` throws, or
any other value, of which only the `msg` property is read (`undefined` when absent). -/
inductive ResBody where
  | null
  | value (msg : JsVal)
  deriving DecidableEq, Repr

/-- What `await fetch(...)` followed by `await res.json()` gives. -/
inductive FetchResult where
  | threw
  | response (ok : Bool) (data : ResBody)
  deriving DecidableEq, Repr

/-- The observable result of running a handler to completion: the component state, the
request bodies that were posted, and the navigation scheduled with `setTimeout`. -/
structure Run (σ ρ ν : Type) where
  state : σ
  sent : List ρ
  navigate : Option ν

/-! ## ResetPasswordConfirm.jsx -/

/-- The test `/[A-Z]/` on one code unit. -/
def isUpper (c : Nat) : Bool := decide (65 ≤ c) && decide (c ≤ 90)

/-- The test `/[a-z]/` on one code unit. -/
def isLower (c : Nat) : Bool := decide (97 ≤ c) && decide (c ≤ 122)

/-- The test `/\d/` on one code unit. -/
def isDigit (c : Nat) : Bool := decide (48 ≤ c) && decide (c ≤ 57)

/-- The test `/[@$!%*?&]/` on one code unit. -/
def isSymbol (c : Nat) : Bool :=
  c == 64 || c == 36 || c == 33 || c == 37 || c == 42 || c == 63 || c == 38

/-- The function `getStrength(password)`. -/
def getStrength (password : JSString) : Nat :=
  let score := 0
  let score := if password.length ≥ 8 then score + 1 else score
  let score := if password.any isUpper then score + 1 else score
  let score := if password.any isLower then score + 1 else score
  let score := if password.any isDigit then score + 1 else score
  let score := if password.any isSymbol then score + 1 else score
  let score := if password.length ≥ 12 then score + 1 else score
  score

/-- The object `passwordRating` returns. -/
structure Rating where
  label : String
  color : String
  bar : String
  deriving DecidableEq, Repr

/-- The function `passwordRating(score)`, on integer scores. -/
def passwordRating (score : Int) : Rating :=
  if score ≤ 2 then { label := "Weak", color := "red-500", bar := "bg-red-200" }
  else if score = 3 then { label := "Good", color := "yellow-600", bar := "bg-yellow-200" }
  else if score = 4 ∨ score = 5 then
    { label := "Better", color := "blue-600", bar := "bg-blue-200" }
  else if score ≥ 6 then { label := "Strong", color := "green-600", bar := "bg-green-200" }
  else { label := "Weak", color := "red-500", bar := "bg-red-200" }

namespace ResetPasswordConfirm

/-- The state of the component: the `useState` cells and the two URL parameters. -/
structure State where
  password : JSString
  cpassword : JSString
  msg : JsVal
  type : String
  loading : Bool
  email : Option USVString
  otp : Option USVString

/-- The JSON body posted to `/api/auth/reset-password/confirm`. -/
structure Body where
  email : Option USVString
  otp : Option USVString
  newPassword : JSString
  deriving DecidableEq

/-- The handler `handleSubmit`; `fetch` answers the POST. -/
def handleSubmit (s : State) (fetch : Body → FetchResult) : Run State Body String :=
  let score := getStrength s.password
  if s.password ≠ s.cpassword then
    { state := { s with msg := .str "⚠️ Passwords do not match", type := "error" },
      sent := [], navigate := none }
  else if score < 3 then
    { state := { s with
        msg := .str ("⚠️ Please choose a stronger password " ++
          "(min. 8 chars, mix of letters, numbers & a symbol)"),
        type := "error" },
      sent := [], navigate := none }
  else
    let s := { s with msg := .str "", loading := true, type := "info" }
    let body : Body := { email := s.email, otp := s.otp, newPassword := s.password }
    let caught : State := { s with msg := .str "⚠️ Server error. Try again.", type := "error" }
    match fetch body with
    | .threw => { state := { caught with loading := false }, sent := [body], navigate := none }
    | .response true _ =>
      { state := { s with
          msg := .str "✅ Password reset successful! Redirecting to login...",
          type := "success", loading := false },
        sent := [body], navigate := some "/login" }
    | .response false .null =>
      { state := { caught with loading := false }, sent := [body], navigate := none }
    | .response false (.value m) =>
      { state := { s with
          msg := if m.truthy then m else .str "❌ Reset failed.",
          type := "error", loading := false },
        sent := [body], navigate := none }

end ResetPasswordConfirm

/-! ## The URL between the two pages

`encodeURIComponent`, the router's `parsePath` and `URLSearchParams` are the platform
functions the pages call; they are written out here after ECMA-262 (Encode), react-router
(`parsePath`) and the WHATWG URL and Encoding standards (urlencoded parser, UTF-8 decoder).
-/

/-- The UTF-8 bytes of one scalar value. -/
def utf8Char (c : Char) : List Nat :=
  let n := c.toNat
  if n < 128 then [n]
  else if n < 2048 then [192 + n / 64, 128 + n % 64]
  else if n < 65536 then [224 + n / 4096, 128 + n / 64 % 64, 128 + n % 64]
  else [240 + n / 262144, 128 + n / 4096 % 64, 128 + n / 64 % 64, 128 + n % 64]

/-- UTF-8 encode a scalar value string. -/
def utf8Encode (s : USVString) : List Nat := s.flatMap utf8Char

/-- The characters `encodeURIComponent` leaves alone: letters, digits and `-_.!~*'()`. -/
def isUnescaped (n : Nat) : Bool :=
  isUpper n || isLower n || isDigit n ||
    n == 45 || n == 95 || n == 46 || n == 33 || n == 126 || n == 42 || n == 39 || n == 40 ||
    n == 41

/-- One upper-case hexadecimal digit, as a code unit. -/
def hexDigit (d : Nat) : Nat := if d < 10 then 48 + d else 55 + d

/-- The escape `%XX` of one byte. -/
def percentByte (b : Nat) : List Nat := [37, hexDigit (b / 16), hexDigit (b % 16)]

/-- What `encodeURIComponent` appends for one scalar value. -/
def encodeChar (c : Char) : List Nat :=
  if isUnescaped c.toNat then [c.toNat] else (utf8Char c).flatMap percentByte

/-- The function `encodeURIComponent(email)` where `email` is the result of
`params.get("email")`: `null` is converted to the string `"null"`. -/
def encodeURIComponent : Option USVString → JSString
  | none => units "null"
  | some s => s.flatMap encodeChar

/-- The `search` part `parsePath` extracts from the path given to `navigate`: from the
first `?` up to the first `#`, empty when there is no `?`.  It is what `useLocation().search`
holds on the next page. -/
def locationSearch (path : JSString) : JSString :=
  let path := path.takeWhile (fun c => c != 35)
  path.dropWhile (fun c => c != 63)

/-- High (leading) surrogate code unit. -/
def isHighSurrogate (c : Nat) : Bool := decide (55296 ≤ c) && decide (c ≤ 56319)

/-- Low (trailing) surrogate code unit. -/
def isLowSurrogate (c : Nat) : Bool := decide (56320 ≤ c) && decide (c ≤ 57343)

/-- Conversion of a JavaScript string to a scalar value string: surrogate pairs are
combined, lone surrogates become U+FFFD. -/
def toUSV : JSString → USVString
  | [] => []
  | [c] => [if isHighSurrogate c || isLowSurrogate c then Char.ofNat 65533 else Char.ofNat c]
  | c :: d :: rest =>
    if isHighSurrogate c && isLowSurrogate d then
      Char.ofNat (65536 + (c - 55296) * 1024 + (d - 56320)) :: toUSV rest
    else if isHighSurrogate c || isLowSurrogate c then Char.ofNat 65533 :: toUSV (d :: rest)
    else Char.ofNat c :: toUSV (d :: rest)

/-- Split a byte sequence on a separator byte. -/
def splitOnByte (sep : Nat) : List Nat → List (List Nat)
  | [] => [[]]
  | b :: bs =>
    if b = sep then [] :: splitOnByte sep bs
    else
      match splitOnByte sep bs with
      | [] => [[b]]
      | x :: xs => (b :: x) :: xs

/-- The value of a hexadecimal digit byte, if it is one. -/
def hexValue (b : Nat) : Option Nat :=
  if 48 ≤ b ∧ b ≤ 57 then some (b - 48)
  else if 65 ≤ b ∧ b ≤ 70 then some (b - 55)
  else if 97 ≤ b ∧ b ≤ 102 then some (b - 87)
  else none

/-- Percent-decode a byte sequence. -/
def percentDecode : List Nat → List Nat
  | [] => []
  | [b] => [b]
  | [b, c] => [b, c]
  | b :: h :: l :: rest =>
    if b = 37 then
      match hexValue h, hexValue l with
      | some x, some y => (16 * x + y) :: percentDecode rest
      | _, _ => b :: percentDecode (h :: l :: rest)
    else b :: percentDecode (h :: l :: rest)

/-- The state of the UTF-8 decoder between bytes: nothing pending, or a code point
under construction with the number of continuation bytes still needed and the bounds
allowed for the next byte. -/
inductive Utf8State where
  | start
  | pending (codePoint needed lower upper : Nat)
  deriving DecidableEq, Repr

/-- The decoder on one byte in the start state. -/
def utf8Lead (b : Nat) : List Char × Utf8State :=
  if b ≤ 127 then ([Char.ofNat b], .start)
  else if 194 ≤ b ∧ b ≤ 223 then ([], .pending (b % 32) 1 128 191)
  else if 224 ≤ b ∧ b ≤ 239 then
    ([], .pending (b % 16) 2 (if b = 224 then 160 else 128) (if b = 237 then 159 else 191))
  else if 240 ≤ b ∧ b ≤ 244 then
    ([], .pending (b % 8) 3 (if b = 240 then 144 else 128) (if b = 244 then 143 else 191))
  else ([Char.ofNat 65533], .start)

/-- The decoder on one byte: a byte outside the bounds ends the pending sequence with
U+FFFD and is then read again in the start state. -/
def utf8Step (st : Utf8State) (b : Nat) : List Char × Utf8State :=
  match st with
  | .start => utf8Lead b
  | .pending cp needed lower upper =>
    if lower ≤ b ∧ b ≤ upper then
      let cp := cp * 64 + b % 64
      if needed = 1 then ([Char.ofNat cp], .start) else ([], .pending cp (needed - 1) 128 191)
    else
      let r := utf8Lead b
      (Char.ofNat 65533 :: r.1, r.2)

/-- Run the decoder over the bytes; a sequence cut short at the end gives U+FFFD. -/
def utf8DecodeFrom (st : Utf8State) : List Nat → USVString
  | [] => match st with
    | .start => []
    | .pending _ _ _ _ => [Char.ofNat 65533]
  | b :: bs => (utf8Step st b).1 ++ utf8DecodeFrom (utf8Step st b).2 bs

/-- UTF-8 decode without BOM. -/
def utf8Decode (bytes : List Nat) : USVString := utf8DecodeFrom .start bytes

/-- One name-value pair of the urlencoded parser, from one `&`-separated piece. -/
def parsePair (bytes : List Nat) : USVString × USVString :=
  let name := bytes.takeWhile (fun b => b != 61)
  let value := (bytes.dropWhile (fun b => b != 61)).drop 1
  let plus := fun (b : Nat) => if b = 43 then 32 else b
  (utf8Decode (percentDecode (name.map plus)), utf8Decode (percentDecode (value.map plus)))

/-- The list `new URLSearchParams(search)` holds: a leading `?` is dropped and the rest
goes through the `application/x-www-form-urlencoded` parser. -/
def URLSearchParams (search : JSString) : List (USVString × USVString) :=
  let init := match search with
    | 63 :: rest => rest
    | other => other
  ((splitOnByte 38 (utf8Encode (toUSV init))).filter (fun piece => !piece.isEmpty)).map
    parsePair

/-- The method `params.get(name)`: the value of the first pair with that name. -/
def paramsGet (params : List (USVString × USVString)) (name : String) : Option USVString :=
  (params.find? (fun p => p.1 = name.toList)).map (fun p => p.2)

/-- The initial state of `ResetPasswordConfirm` when the router is at `path`. -/
def ResetPasswordConfirm.mount (path : JSString) : ResetPasswordConfirm.State :=
  let params := URLSearchParams (locationSearch path)
  { password := [], cpassword := [], msg := .str "", type := "info", loading := false,
    email := paramsGet params "email", otp := paramsGet params "otp" }

/-! ## ResetPasswordOTP.jsx -/

namespace ResetPasswordOTP

/-- The state of the component: the `useState` cells and the `email` URL parameter. -/
structure State where
  otp : JSString
  msg : JsVal
  type : String
  timer : Int
  loading : Bool
  resending : Bool
  email : Option USVString

/-- The initial state when the router is at `path`. -/
def mount (path : JSString) : State :=
  { otp := [], msg := .str "", type := "info", timer := 60, loading := false,
    resending := false, email := paramsGet (URLSearchParams (locationSearch path)) "email" }

/-- The call `value.replace(/\D/, "")`: the pattern has no `g` flag, so the first code
unit that is not a digit is removed. -/
def replaceNonDigit : JSString → JSString
  | [] => []
  | c :: cs => if isDigit c then c :: replaceNonDigit cs else cs

/-- The `onChange` handler of the OTP input. -/
def onChange (s : State) (value : JSString) : State :=
  { s with otp := replaceNonDigit value }

/-- The callback of the one-second interval, `setTimer((t) => t - 1)`. -/
def tick (s : State) : State := { s with timer := s.timer - 1 }

/-- The JSON body posted to `/api/auth/reset-password/verify`. -/
structure VerifyBody where
  email : Option USVString
  otp : JSString
  deriving DecidableEq

/-- The JSON body posted to `/api/auth/reset-password/request`. -/
structure RequestBody where
  email : Option USVString
  deriving DecidableEq

/-- The URL `handleSubmit` navigates to after a successful verification. -/
def confirmUrl (email : Option USVString) (otp : JSString) : JSString :=
  units "/reset-password/confirm?email=" ++ encodeURIComponent email ++ units "&otp=" ++ otp

/-- The part of `handleSubmit` before the `await`: the state it sets and the body it posts. -/
def submitStart (s : State) : State × VerifyBody :=
  ({ s with msg := .str "", loading := true, type := "info" }, { email := s.email, otp := s.otp })

/-- The part of `handleSubmit` after the `await`; `sent` is the body that was posted, whose
`email` and `otp` the handler still holds. -/
def submitFinish (s : State) (sent : VerifyBody) (r : FetchResult) : State × Option JSString :=
  let caught : State :=
    { s with msg := .str "⚠️ Server error. Try again later.", type := "error" }
  match r with
  | .threw => ({ caught with loading := false }, none)
  | .response true _ =>
    ({ s with msg := .str "✅ OTP verified! Redirecting...", type := "success",
              loading := false },
      some (confirmUrl sent.email sent.otp))
  | .response false .null => ({ caught with loading := false }, none)
  | .response false (.value m) =>
    ({ s with msg := if m.truthy then m else .str "❌ Invalid or expired OTP.",
              type := "error", loading := false }, none)

/-- The handler `handleSubmit` run to completion; `fetch` answers the POST. -/
def handleSubmit (s : State) (fetch : VerifyBody → FetchResult) :
    Run State VerifyBody JSString :=
  let started := submitStart s
  let finished := submitFinish started.1 started.2 (fetch started.2)
  { state := finished.1, sent := [started.2], navigate := finished.2 }

/-- The part of `handleResend` before the `await`. -/
def resendStart (s : State) : State × RequestBody :=
  ({ s with resending := true, msg := .str "", type := "info" }, { email := s.email })

/-- The part of `handleResend` after the `await`. -/
def resendFinish (s : State) (r : FetchResult) : State :=
  let caught : State := { s with msg := .str "⚠️ Server error. Try again.", type := "error" }
  match r with
  | .threw => { caught with resending := false }
  | .response true _ =>
    { s with
      msg := .str ("🔁 OTP resent! Please check your inbox and, if necessary, " ++
        "your Spam/Junk folder."),
      type := "success", timer := 60, resending := false }
  | .response false .null => { caught with resending := false }
  | .response false (.value m) =>
    { s with msg := if m.truthy then m else .str "Failed to resend OTP.",
             type := "error", resending := false }

/-- The handler `handleResend` run to completion; `fetch` answers the POST. -/
def handleResend (s : State) (fetch : RequestBody → FetchResult) :
    Run State RequestBody JSString :=
  let started := resendStart s
  { state := resendFinish started.1 (fetch started.2), sent := [started.2], navigate := none }

/-- What can happen on the page: the interval fires, the input changes, the form is
submitted and its request completes, "Resend OTP" is clicked and its request completes. -/
inductive Event where
  | tick
  | change (value : JSString)
  | submit
  | submitDone (r : FetchResult)
  | resend
  | resendDone (r : FetchResult)

/-- When an event can happen.  The effect installs the interval only `if (timer > 0)`; the
input and the submit button are `disabled={loading}`; the resend button is rendered in the
other branch of `timer > 0 ? ... : ...` and is `disabled={resending}`; `loading` and
`resending` are true exactly while the request of their handler is under way. -/
def enabled (s : State) : Event → Bool
  | .tick => decide (s.timer > 0)
  | .change _ => !s.loading
  | .submit => !s.loading
  | .submitDone _ => s.loading
  | .resend => !decide (s.timer > 0) && !s.resending
  | .resendDone _ => s.resending

/-- The state after an event.  The input is disabled while the verify request is under
way, so the `otp` the handler holds is still the one of the state. -/
def step (s : State) : Event → State
  | .tick => tick s
  | .change value => onChange s value
  | .submit => (submitStart s).1
  | .submitDone r => (submitFinish s { email := s.email, otp := s.otp } r).1
  | .resend => (resendStart s).1
  | .resendDone r => resendFinish s r

/-- Run a sequence of events, each of which has to be enabled when its turn comes. -/
def run (s : State) : List Event → Option State
  | [] => some s
  | e :: es => if enabled s e then run (step s e) es else none

/-- The number of ticks since the page was opened or, if a resend has succeeded since,
since the last successful resend; `n` is the count before the events. -/
def ticksSinceRestart (n : Nat) : List Event → Nat
  | [] => n
  | .tick :: es => ticksSinceRestart (n + 1) es
  | .resendDone (.response true _) :: es => ticksSinceRestart 0 es
  | _ :: es => ticksSinceRestart n es

end ResetPasswordOTP

/-! ## The server, as far as the pages depend on it -/

/-- Modelled from the spec: the server's `OtpRecord` of section 3 (the backend routes are
not among the sources): `email`, numeric `code`, `issuedAt`, `expiresAt`, `consumed`. -/
structure OtpRecord where
  email : USVString
  code : JSString
  issuedAt : Nat
  expiresAt : Nat
  consumed : Bool

/-- Modelled from the spec: the operation `VerifyOtp(email, code)` of section 4.2, which
"must compare against stored code and expiry"; a record is valid "only while unexpired and
unconsumed" (section 3). -/
def VerifyOtp (records : List OtpRecord) (now : Nat) (email : Option USVString)
    (code : JSString) : Bool :=
  records.any fun r =>
    decide (email = some r.email) && decide (code = r.code) && decide (now < r.expiresAt) &&
      !r.consumed

/-- Modelled from the spec: what the server keeps (the backend is not among the sources):
the `OtpRecord`s it has created, newest first, and the credential of each account as the
list of password updates, newest first. -/
structure ServerState where
  records : List OtpRecord
  credentials : List (USVString × JSString)

/-- Modelled from the spec: the operation `RequestOtp(email)` of section 4.2 with the code
it generates: it invalidates "any prior unconsumed code for that email" and persists the
new one "with a 2-minute expiry" (times are in seconds). -/
def RequestOtp (s : ServerState) (now : Nat) (email : USVString) (code : JSString) :
    ServerState :=
  { s with records :=
      { email := email, code := code, issuedAt := now, expiresAt := now + 120,
        consumed := false } ::
      s.records.map fun r => if r.email = email then { r with consumed := true } else r }

/-- Modelled from the spec: the operation `ConfirmReset(email, code, newPassword)` of
section 4.2: it "must re-validate code, then atomically update the credential and
invalidate the OtpRecord"; the second component tells whether it succeeded. -/
def ConfirmReset (s : ServerState) (now : Nat) (email : USVString) (code : JSString)
    (newPassword : JSString) : ServerState × Bool :=
  if VerifyOtp s.records now (some email) code then
    ({ records := s.records.map fun r =>
         if r.email = email ∧ r.code = code then { r with consumed := true } else r,
       credentials := (email, newPassword) :: s.credentials }, true)
  else (s, false)

/-- Modelled from the spec: a call the server receives, with the time at which it is
served; a request carries the code the issuer generates for it. -/
inductive ServerCall where
  | request (now : Nat) (email : USVString) (code : JSString)
  | verify (now : Nat) (email : USVString) (code : JSString)
  | confirm (now : Nat) (email : USVString) (code : JSString) (newPassword : JSString)

/-- Modelled from the spec: the state after a call.  The issuer may generate any code,
also one it has generated before. -/
def serve (s : ServerState) : ServerCall → ServerState
  | .request now email code => RequestOtp s now email code
  | .verify _ _ _ => s
  | .confirm now email code newPassword => (ConfirmReset s now email code newPassword).1

/-- Modelled from the spec: the state after a sequence of calls. -/
def serveAll (s : ServerState) : List ServerCall → ServerState
  | [] => s
  | c :: cs => serveAll (serve s c) cs

/-- Modelled from the spec: the call is a request that issues `code` to `email`. -/
def ServerCall.issues (email : USVString) (code : JSString) : ServerCall → Bool
  | .request _ e c => decide (e = email) && decide (c = code)
  | .verify _ _ _ => false
  | .confirm _ _ _ _ => false

/-- Modelled from the spec: every record the server holds for `(email, code)` is
consumed. -/
def invalidated (s : ServerState) (email : USVString) (code : JSString) : Prop :=
  ∀ r ∈ s.records, r.email = email → r.code = code → r.consumed = true

/-! ## The password criteria, as the specification words them -/

/-- The six criteria of the password policy. -/
inductive Criterion where
  | length8
  | uppercase
  | lowercase
  | digit
  | symbol
  | length12
  deriving DecidableEq, Repr

/-- The six criteria, each listed once. -/
def Criterion.all : List Criterion :=
  [.length8, .uppercase, .lowercase, .digit, .symbol, .length12]

/-- What it is for a password to meet a criterion. -/
def Criterion.meets (p : JSString) : Criterion → Prop
  | .length8 => 8 ≤ p.length
  | .uppercase => ∃ c ∈ p, 65 ≤ c ∧ c ≤ 90
  | .lowercase => ∃ c ∈ p, 97 ≤ c ∧ c ≤ 122
  | .digit => ∃ c ∈ p, 48 ≤ c ∧ c ≤ 57
  | .symbol => ∃ c ∈ p, c ∈ units "@$!%*?&"
  | .length12 => 12 ≤ p.length

instance Criterion.decidableMeets (p : JSString) (k : Criterion) : Decidable (k.meets p) := by
  cases k <;> unfold Criterion.meets <;> infer_instance

/-- The number of criteria a password meets. -/
def criteriaMet (p : JSString) : Nat :=
  (Criterion.all.filter fun k => decide (k.meets p)).length

/-- The code units `encodeURIComponent` can produce: the unescaped ones and `%`. -/
def isUriUnit (n : Nat) : Bool := isUnescaped n || n == 37

/-! ## SellerAddProduct.jsx

Media URLs, the category and the free-text fields are only stored, compared and tested for
emptiness; they are Lean strings.  The product name is trimmed, so it is a `JSString`.
-/

/-- The `type` of a media entry, `"image"` or `"video"`. -/
inductive MediaType where
  | image
  | video
  deriving DecidableEq, Repr

/-- An entry `{ type, url }` of `mediaOrder`. -/
structure Media where
  type : MediaType
  url : String
  deriving DecidableEq, Repr

/-- A JavaScript number as far as the form looks at it: `NaN`, an infinity, or a finite
value. -/
inductive JSNum where
  | nan
  | negInf
  | posInf
  | finite (x : ℚ)
  deriving DecidableEq

/-- The comparison `x <= 0`. -/
def JSNum.leZero : JSNum → Bool
  | .nan => false
  | .negInf => true
  | .posInf => false
  | .finite x => decide (x ≤ 0)

/-- The comparison `x > 0`. -/
def JSNum.gtZero : JSNum → Bool
  | .nan => false
  | .negInf => false
  | .posInf => true
  | .finite x => decide (x > 0)

/-- White space and line terminators, the code units `String.prototype.trim` removes. -/
def isTrimmed (c : Nat) : Bool :=
  (decide (9 ≤ c) && decide (c ≤ 13)) || c == 32 || c == 160 || c == 5760 ||
    (decide (8192 ≤ c) && decide (c ≤ 8202)) || c == 8232 || c == 8233 || c == 8239 ||
    c == 8287 || c == 12288 || c == 65279

/-- The method `s.trim()`. -/
def trim (s : JSString) : JSString :=
  ((s.dropWhile isTrimmed).reverse.dropWhile isTrimmed).reverse

/-- The call `list.splice(start, 1)` for a start position that is not negative. -/
def spliceRemove {α : Type} (list : List α) (start : Nat) : List α :=
  list.take start ++ list.drop (start + 1)

/-- The call `list.splice(start, 0, item)` for a start position that is not negative. -/
def spliceInsert {α : Type} (list : List α) (start : Nat) (item : α) : List α :=
  list.take start ++ item :: list.drop start

/-- The assignment `arr[i] = x` on an array whose entries may be `undefined` (`none`): past
the end the array grows, the positions in between being empty. -/
def arraySet {α : Type} (arr : List (Option α)) (i : Nat) (x : Option α) : List (Option α) :=
  if i < arr.length then arr.set i x
  else arr ++ List.replicate (i - arr.length) none ++ [x]

namespace SellerAddProduct

/-- The `form` state. -/
structure Form where
  name : JSString
  category : String
  description : String
  stock : String
  price : String
  images : List String
  videos : List String
  delivery : String

/-- The state of the component that the media and submit handlers read and write. -/
structure State where
  form : Form
  autoArrange : Bool
  mediaOrder : List Media
  uploading : Bool
  saving : Bool

/-- The initial state: the arguments of the `useState` calls. -/
def init : State :=
  { form := { name := [], category := "", description := "", stock := "", price := "",
              images := [], videos := [], delivery := "" },
    autoArrange := true, mediaOrder := [], uploading := false, saving := false }

/-- The function `addUrl(type, url)`. -/
def addUrl (s : State) (type : MediaType) (url : String) : State :=
  if url = "" then s
  else if type = .image then { s with form := { s.form with images := s.form.images ++ [url] } }
  else { s with form := { s.form with videos := s.form.videos ++ [url] } }

/-- The assignment `turn = (turn === "image") ? "video" : "image"`. -/
def nextTurn (turn : MediaType) : MediaType :=
  if turn = .image then .video else .image

/-- The `while` loop of `buildAutoMerged`, from the values of `i`, `v`, `turn` and `merged`
at the start of an iteration to the value of `merged` when the loop is left. -/
def autoLoop (imgs vids : List String) (i v : Nat) (turn : MediaType) (merged : List Media) :
    List Media :=
  if i < imgs.length ∨ v < vids.length then
    if h1 : turn = .image ∧ i < imgs.length then
      autoLoop imgs vids (i + 1) v (nextTurn turn)
        (merged ++ [{ type := .image, url := imgs[i] }])
    else if h2 : turn = .video ∧ v < vids.length then
      autoLoop imgs vids i (v + 1) (nextTurn turn)
        (merged ++ [{ type := .video, url := vids[v] }])
    else if h3 : i < imgs.length then
      autoLoop imgs vids (i + 1) v (nextTurn turn)
        (merged ++ [{ type := .image, url := imgs[i] }])
    else if h4 : v < vids.length then
      autoLoop imgs vids i (v + 1) (nextTurn turn)
        (merged ++ [{ type := .video, url := vids[v] }])
    else merged
  else merged
termination_by (imgs.length - i) + (vids.length - v)
decreasing_by all_goals (simp_wf; omega)

/-- The function `buildAutoMerged()`. -/
def buildAutoMerged (form : Form) : List Media :=
  let imgs := form.images
  let vids := form.videos
  let turn : MediaType := if imgs.length > 0 then .image else .video
  autoLoop imgs vids 0 0 turn []

/-- The function `buildManualMerged()`. -/
def buildManualMerged (form : Form) : List Media :=
  form.images.map (fun u => { type := .image, url := u }) ++
    form.videos.map (fun u => { type := .video, url := u })

/-- The effect that runs when `form.images.length`, `form.videos.length` or `autoArrange`
has changed. -/
def syncEffect (s : State) : State :=
  if s.autoArrange then { s with mediaOrder := buildAutoMerged s.form }
  else
    let prevUrls := s.mediaOrder.map (fun m => m.url)
    let current := buildManualMerged s.form
    let preserved := current.filter (fun m => prevUrls.contains m.url)
    let added := current.filter (fun m => !prevUrls.contains m.url)
    { s with mediaOrder := preserved ++ added }

/-- The handler `handleDragEnd`: the new value of `mediaOrder`, in which `none` is an
entry `undefined`.  The two refs hold a position, or `undefined` or `null` (`none`), which
`splice` takes for 0 and which indexes nothing. -/
def handleDragEnd (mediaOrder : List Media) (dragItem dragOverItem : Option Nat) :
    List (Option Media) :=
  let list := mediaOrder.map some
  let dragged : Option Media := dragItem.bind (fun i => mediaOrder[i]?)
  let list := spliceRemove list (dragItem.getD 0)
  let list := spliceInsert list (dragOverItem.getD 0) dragged
  list

/-- The handler `removeAt(idx)`.  `buildAutoMerged()` reads the `form` of the render the
handler belongs to, not the one just set. -/
def removeAt (s : State) (idx : Nat) : State :=
  match s.mediaOrder[idx]? with
  | none => s
  | some item =>
    let form : Form :=
      if item.type = .image then
        { s.form with images := s.form.images.filter (fun u => u != item.url) }
      else { s.form with videos := s.form.videos.filter (fun u => u != item.url) }
    if s.autoArrange then { s with form := form, mediaOrder := buildAutoMerged s.form }
    else
      { s with form := form,
               mediaOrder := (s.mediaOrder.enum.filter (fun p => p.1 != idx)).map (fun p => p.2) }

/-- The second argument of `moveItem`: `"left"`, or anything else. -/
inductive Direction where
  | left
  | right
  deriving DecidableEq, Repr

/-- The handler `moveItem(idx, dir)`: the new value of `mediaOrder`, in which `none` is an
entry `undefined`; on the early `return` the state keeps its value. -/
def moveItem (mediaOrder : List Media) (idx : Nat) (dir : Direction) : List (Option Media) :=
  let arr := mediaOrder.map some
  let target : Int := if dir = .left then (idx : Int) - 1 else (idx : Int) + 1
  if target < 0 ∨ target ≥ arr.length then arr
  else
    let atTarget : Option Media := (arr[target.toNat]?).getD none
    let atIdx : Option Media := (arr[idx]?).getD none
    arraySet (arraySet arr idx atTarget) target.toNat atIdx

/-- The function `finalMergedForSubmit()`. -/
def finalMergedForSubmit (s : State) : List Media :=
  if s.autoArrange then buildAutoMerged s.form else s.mediaOrder

/-- The `seller` object of the auth context, of which `_id` is read. -/
structure Seller where
  _id : JsVal

/-- The payload posted to `/api/sellers/products/with-stock`. -/
structure Payload where
  name : JSString
  category : String
  description : String
  stock : JSNum
  price : JSNum
  image : String
  images : List String
  videos : List String
  delivery : String
  sellerId : JsVal
  mediaOrder : List Media

/-- The error `axios.post` rejects with, as far as the handler reads it:
`err.response?.data?.error`, `err.message` and `err.response?.status`. -/
structure AxiosError where
  responseError : JsVal
  message : JsVal
  status : Option Nat

/-- The outcome of `await axios.post(...)`. -/
inductive PostResult where
  | ok
  | rejected (err : AxiosError)

/-- A call of `toast.success` or `toast.error`. -/
inductive Toast where
  | success (text : JsVal)
  | error (text : JsVal)
  deriving DecidableEq

/-- The observable result of `handleSubmit`: the state, the payloads posted, the toasts
shown, the navigation scheduled, and whether `logout()` was called. -/
structure SubmitRun where
  state : State
  sent : List Payload
  toasts : List Toast
  navigate : Option String
  loggedOut : Bool

/-- The `catch` and `finally` blocks of `handleSubmit`, for an error with the given
fields, after the payloads in `sent` were posted. -/
def submitCatch (s : State) (sent : List Payload) (err : AxiosError) : SubmitRun :=
  { state := { s with saving := false }, sent := sent,
    toasts := [.error (if err.responseError.truthy then err.responseError
      else if err.message.truthy then err.message else .str "Submit failed.")],
    navigate := none,
    loggedOut := decide (err.status = some 401) }

/-- The error `new Error(message)`. -/
def newError (message : String) : AxiosError :=
  { responseError := .undefined, message := .str message, status := none }

/-- The handler `handleSubmit`.  `seller` comes from the auth context, `Number` is the
conversion of the platform and `post` answers the request. -/
def handleSubmit (seller : Option Seller) (Number : String → JSNum) (s : State)
    (post : Payload → PostResult) : SubmitRun :=
  let form := s.form
  let s := { s with saving := true }
  match seller with
  | none => submitCatch s [] (newError "Login required.")
  | some seller =>
    if !seller._id.truthy then submitCatch s [] (newError "Login required.")
    else if trim form.name = [] then submitCatch s [] (newError "Product name required.")
    else if form.category = "" then submitCatch s [] (newError "Category required.")
    else if form.stock = "" ∨ (Number form.stock).leZero then
      submitCatch s [] (newError "Stock must be positive.")
    else if form.price = "" ∨ (Number form.price).leZero then
      submitCatch s [] (newError "Price must be positive.")
    else
      let merged := finalMergedForSubmit s
      let fromMerged : String :=
        match merged.find? (fun m => m.type = .image) with
        | some m => if m.url = "" then "" else m.url
        | none => ""
      let payload : Payload :=
        { name := trim form.name, category := form.category, description := form.description,
          stock := Number form.stock, price := Number form.price,
          image := match form.images.head? with
            | some u => if u = "" then fromMerged else u
            | none => fromMerged,
          images := form.images, videos := form.videos, delivery := form.delivery,
          sellerId := seller._id, mediaOrder := merged }
      match post payload with
      | .ok =>
        { state := { s with saving := false }, sent := [payload],
          toasts := [.success (.str "Product added!")],
          navigate := some "/seller/products", loggedOut := false }
      | .rejected err => submitCatch s [payload] err

end SellerAddProduct

/-! ## The media order, as the specification words it -/

/-- Take turns between two lists, the first list first; when one runs out the rest of the
other follows. -/
def interleave {α : Type} : List α → List α → List α
  | [], ys => ys
  | xs, [] => xs
  | x :: xs, y :: ys => x :: y :: interleave xs ys

/-- The alternating merge in the words of the specification: with `k` the smaller of the
two lengths, image `imgs[0]`, video `vids[0]`, ..., image `imgs[k-1]`, video `vids[k-1]`,
then the remaining items of the longer list in their order. -/
def alternatingMerge (imgs vids : List String) : List Media :=
  let k := min imgs.length vids.length
  ((imgs.zip vids).flatMap fun p =>
      [{ type := .image, url := p.1 }, { type := .video, url := p.2 }]) ++
    ((imgs.drop k).map fun u => { type := .image, url := u }) ++
    ((vids.drop k).map fun u => { type := .video, url := u })

/-- The list with the items at positions `a` and `b` exchanged, every other position
keeping its item. -/
def exchange {α : Type} (l : List α) (a b : Nat) : List α :=
  match l[a]?, l[b]? with
  | some x, some y => (l.set a y).set b x
  | _, _ => l

/-- The checks of `SellerAddProduct.handleSubmit`, in its order: none of the five `throw`
conditions holds. -/
def submitChecks (seller : Option SellerAddProduct.Seller) (Number : String → JSNum) (form : SellerAddProduct.Form) : Prop :=
  (∃ sel, seller = some sel ∧ sel._id.truthy = true) ∧ trim form.name ≠ [] ∧
    form.category ≠ "" ∧ (form.stock ≠ "" ∧ (Number form.stock).leZero = false) ∧
    (form.price ≠ "" ∧ (Number form.price).leZero = false)

/-- The media of the form, each image and each video once per occurrence: the images as
the form lists them, then the videos. -/
def mediaOfForm (form : SellerAddProduct.Form) : List Media :=
  (form.images.map fun u => { type := .image, url := u }) ++
    (form.videos.map fun u => { type := .video, url := u })

/-- The urls of the entries of one type, in order. -/
def urlsOfType (t : MediaType) (l : List Media) : List String :=
  (l.filter fun m => m.type = t).map fun m => m.url

/-! ## editprofile.jsx and profilepage.jsx -/

/-- The method `s.split(" ")`, for a separator of one code unit: `"".split(" ")` is `[""]`. -/
def split (s : JSString) (sep : Nat) : List JSString := splitOnByte sep s

/-- What the avatar shows: the profile image, or the initials. -/
inductive Avatar where
  | image (src : String)
  | initials (text : JSString)
  deriving DecidableEq

/-- The fields of the `user` object that the avatar reads; `fullName` is `none` when the
object has no such property. -/
structure ProfileUser where
  profileImage : String
  fullName : Option JSString

namespace EditProfile

/-- The function `getInitials(name)` of `editprofile.jsx`; `none` is a missing name
(`undefined` or `null`), `toUpperCase` is the method of the platform, and an error is a
`TypeError` thrown.  `parts[0][0]` of an empty string is `undefined`, and `undefined`
added to a string reads `"undefined"`. -/
def getInitials (toUpperCase : JSString → JSString) (name : Option JSString) :
    Except String JSString :=
  match name with
  | none => .ok (units "U")
  | some name =>
    let parts := split (trim name) 32
    match parts with
    | [] => .ok (units "U")
    | [p0] =>
      match p0.head? with
      | some c => .ok (toUpperCase [c])
      | none => .error "TypeError"
    | p0 :: p1 :: _ =>
      match p0.head?, p1.head? with
      | some a, some b => .ok (toUpperCase [a, b])
      | some a, none => .ok (toUpperCase (a :: units "undefined"))
      | none, some b => .ok (toUpperCase (units "undefined" ++ [b]))
      | none, none => .error "TypeError"

/-- The initial `user` state: the argument of `useState`. -/
def initialUser : ProfileUser := { profileImage := "", fullName := some [] }

/-- The avatar of the page, `user.profileImage ? <img .../> : getInitials(user.fullName)`. -/
def avatar (toUpperCase : JSString → JSString) (user : ProfileUser) : Except String Avatar :=
  if user.profileImage ≠ "" then .ok (.image user.profileImage)
  else (getInitials toUpperCase user.fullName).map .initials

end EditProfile

namespace ProfilePage

/-- The function `getInitials(name)` of `profilepage.jsx`, read as the one of
`editprofile.jsx`. -/
def getInitials (toUpperCase : JSString → JSString) (name : Option JSString) :
    Except String JSString :=
  match name with
  | none => .ok (units "U")
  | some name =>
    let parts := split (trim name) 32
    match parts with
    | [] => .ok (units "U")
    | [p0] =>
      match p0.head? with
      | some c => .ok (toUpperCase [c])
      | none => .error "TypeError"
    | p0 :: p1 :: _ =>
      match p0.head?, p1.head? with
      | some a, some b => .ok (toUpperCase [a, b])
      | some a, none => .ok (toUpperCase (a :: units "undefined"))
      | none, some b => .ok (toUpperCase (units "undefined" ++ [b]))
      | none, none => .error "TypeError"

/-- The avatar of the page, `user.profileImage ? <img .../> : getInitials(user.fullName)`. -/
def avatar (toUpperCase : JSString → JSString) (user : ProfileUser) : Except String Avatar :=
  if user.profileImage ≠ "" then .ok (.image user.profileImage)
  else (getInitials toUpperCase user.fullName).map .initials

end ProfilePage

/-- What `toUpperCase` does to the letters `a` to `z`; the other code units of the sample
names are left as they are. -/
def sampleUpperCase (s : JSString) : JSString :=
  s.map fun c => if isLower c then c - 32 else c

/-! ## A sample session, for the concrete instances below -/

/-- A server store holding one unexpired, unconsumed record. -/
def sampleRecords : List OtpRecord :=
  [{ email := "a+b@é.com".toList, code := units "123456", issuedAt := 0, expiresAt := 120,
     consumed := false }]

/-- A verify endpoint over `sampleRecords` at time 30, answering as `VerifyOtp` decides. -/
def sampleVerify (b : ResetPasswordOTP.VerifyBody) : FetchResult :=
  if VerifyOtp sampleRecords 30 b.email b.otp then .response true (.value .undefined)
  else .response false (.value (.str "Invalid or expired OTP"))

/-- The OTP page with the issued code typed in. -/
def sampleOtpState : ResetPasswordOTP.State :=
  { otp := units "123456", msg := .str "", type := "info", timer := 42, loading := false,
    resending := false, email := some "a+b@é.com".toList }

/-- The URL the OTP page navigates to from `sampleOtpState`. -/
def sampleUrl : JSString :=
  units "/reset-password/confirm?email=a%2Bb%40%C3%A9.com&otp=123456"

/-- The confirm page opened at `sampleUrl`, with a password typed twice. -/
def sampleConfirmState : ResetPasswordConfirm.State :=
  { ResetPasswordConfirm.mount sampleUrl with
    password := units "Abcdef12", cpassword := units "Abcdef12" }

/-- A form with images `a`, `c` and video `b`, in manual mode, the user having put the video
first when the form held `a` and `b`. -/
def sampleManualState : SellerAddProduct.State :=
  { SellerAddProduct.init with
    form := { SellerAddProduct.init.form with images := ["a", "c"], videos := ["b"] },
    autoArrange := false,
    mediaOrder := [{ type := .video, url := "b" }, { type := .image, url := "a" }] }

/-- A form holding the same image URL twice, in manual mode. -/
def sampleDuplicateState : SellerAddProduct.State :=
  { SellerAddProduct.init with
    form := { SellerAddProduct.init.form with images := ["u", "u"] },
    autoArrange := false,
    mediaOrder := [{ type := .image, url := "u" }, { type := .image, url := "u" }] }

/-- A seller that is logged in. -/
def sampleSeller : SellerAddProduct.Seller := { _id := .str "s1" }

/-- A conversion that agrees with `Number` on the texts of the samples: `"3"`, `"250"`,
the empty text (0) and `"abc"`, which is not numeric (`NaN`). -/
def sampleNumber (text : String) : JSNum :=
  if text = "3" then .finite 3 else if text = "250" then .finite 250
  else if text = "" then .finite 0 else .nan

/-- A filled-in product form. -/
def sampleProductState : SellerAddProduct.State :=
  { SellerAddProduct.init with
    form := { SellerAddProduct.init.form with
      name := units " Lamp ", category := "furniture", stock := "3", price := "250",
      images := ["i1"] } }

/-- The filled-in product form with a stock that is not numeric. -/
def sampleNonNumericState : SellerAddProduct.State :=
  { sampleProductState with form := { sampleProductState.form with stock := "abc" } }

/-- A form with image `a` and video `b`, in manual mode, the order still being the one of
the form. -/
def sampleFormOrderState : SellerAddProduct.State :=
  { SellerAddProduct.init with
    form := { SellerAddProduct.init.form with images := ["a"], videos := ["b"] },
    autoArrange := false,
    mediaOrder := [{ type := .image, url := "a" }, { type := .video, url := "b" }] }

/-! ## Theorems -/

theorem units_symbols : units "@$!%*?&" = [64, 36, 33, 37, 42, 63, 38] := by decide

theorem any_isUpper (p : JSString) : p.any isUpper = true ↔ Criterion.uppercase.meets p := by
  simp [Criterion.meets, isUpper, List.any_eq_true]

theorem any_isLower (p : JSString) : p.any isLower = true ↔ Criterion.lowercase.meets p := by
  simp [Criterion.meets, isLower, List.any_eq_true]

theorem any_isDigit (p : JSString) : p.any isDigit = true ↔ Criterion.digit.meets p := by
  simp [Criterion.meets, isDigit, List.any_eq_true]

theorem any_isSymbol (p : JSString) : p.any isSymbol = true ↔ Criterion.symbol.meets p := by
  simp only [Criterion.meets, isSymbol, List.any_eq_true, units_symbols, Bool.or_eq_true,
    beq_iff_eq, List.mem_cons, List.mem_singleton, List.not_mem_nil, or_false, or_assoc]

/-- The score is the sum of six indicators, one per criterion. -/
theorem getStrength_eq_sum (p : JSString) :
    getStrength p =
      (if Criterion.length8.meets p then 1 else 0) + (if Criterion.uppercase.meets p then 1 else 0)
        + (if Criterion.lowercase.meets p then 1 else 0) + (if Criterion.digit.meets p then 1 else 0)
        + (if Criterion.symbol.meets p then 1 else 0) + (if Criterion.length12.meets p then 1 else 0)
    := by
  simp only [getStrength, any_isUpper, any_isLower, any_isDigit, any_isSymbol]
  simp only [Criterion.meets, ge_iff_le]
  split_ifs <;> rfl

/-- The count of criteria met is the same sum. -/
theorem criteriaMet_eq_sum (p : JSString) :
    criteriaMet p =
      (if Criterion.length8.meets p then 1 else 0) + (if Criterion.uppercase.meets p then 1 else 0)
        + (if Criterion.lowercase.meets p then 1 else 0) + (if Criterion.digit.meets p then 1 else 0)
        + (if Criterion.symbol.meets p then 1 else 0) + (if Criterion.length12.meets p then 1 else 0)
    := by
  simp only [criteriaMet, Criterion.all, List.filter]
  split_ifs <;> simp_all

/-- The score never exceeds six. -/
theorem getStrength_le_six (p : JSString) : getStrength p ≤ 6 := by
  rw [getStrength_eq_sum]
  split_ifs <;> decide

/-- Different passwords: the first early return of `handleSubmit`. -/
theorem confirm_handleSubmit_mismatch (s : ResetPasswordConfirm.State)
    (fetch : ResetPasswordConfirm.Body → FetchResult) (h : s.password ≠ s.cpassword) :
    ResetPasswordConfirm.handleSubmit s fetch =
      { state := { s with msg := .str "⚠️ Passwords do not match", type := "error" },
        sent := [], navigate := none } := by
  simp only [ResetPasswordConfirm.handleSubmit, if_pos h]

/-- A score below three: the second early return of `handleSubmit`. -/
theorem confirm_handleSubmit_weak (s : ResetPasswordConfirm.State)
    (fetch : ResetPasswordConfirm.Body → FetchResult) (h : s.password = s.cpassword)
    (hw : getStrength s.password < 3) :
    ResetPasswordConfirm.handleSubmit s fetch =
      { state := { s with
          msg := .str ("⚠️ Please choose a stronger password " ++
            "(min. 8 chars, mix of letters, numbers & a symbol)"),
          type := "error" },
        sent := [], navigate := none } := by
  simp only [ResetPasswordConfirm.handleSubmit, ne_eq, h, not_true_eq_false, if_false]
  rw [← h, if_pos hw]

/-- Past both checks `handleSubmit` posts exactly one request. -/
theorem confirm_handleSubmit_sent (s : ResetPasswordConfirm.State)
    (fetch : ResetPasswordConfirm.Body → FetchResult) (h : s.password = s.cpassword)
    (hs : getStrength s.password ≥ 3) :
    (ResetPasswordConfirm.handleSubmit s fetch).sent =
      [{ email := s.email, otp := s.otp, newPassword := s.password }] := by
  have hw : ¬ getStrength s.password < 3 := by omega
  simp only [ResetPasswordConfirm.handleSubmit, ne_eq, h, not_true_eq_false, if_false]
  rw [← h, if_neg hw]
  split <;> rfl

/-- C1: in `ResetPasswordConfirm.handleSubmit` the POST to the confirm endpoint is issued
if and only if `password === cpassword` and `getStrength(password) >= 3`, and then it is
the one request with body `{ email, otp, newPassword: password }`; in every rejected case
nothing is sent, a non-empty message with type `"error"` is set, the loading flag keeps
its value (false, the button being disabled otherwise) and nothing is scheduled. -/
theorem C1_confirm_post_iff_local_checks (s : ResetPasswordConfirm.State)
    (fetch : ResetPasswordConfirm.Body → FetchResult) :
    ((ResetPasswordConfirm.handleSubmit s fetch).sent =
        [{ email := s.email, otp := s.otp, newPassword := s.password }] ↔
      s.password = s.cpassword ∧ getStrength s.password ≥ 3) ∧
    (¬(s.password = s.cpassword ∧ getStrength s.password ≥ 3) →
      (ResetPasswordConfirm.handleSubmit s fetch).sent = [] ∧
      (ResetPasswordConfirm.handleSubmit s fetch).state.type = "error" ∧
      (∃ m, (ResetPasswordConfirm.handleSubmit s fetch).state.msg = .str m ∧ m ≠ "") ∧
      (ResetPasswordConfirm.handleSubmit s fetch).state.loading = s.loading ∧
      (ResetPasswordConfirm.handleSubmit s fetch).navigate = none) := by
  by_cases h1 : s.password = s.cpassword
  · by_cases h2 : getStrength s.password < 3
    · have h3 : ¬ getStrength s.password ≥ 3 := by omega
      rw [confirm_handleSubmit_weak s fetch h1 h2]
      refine ⟨⟨fun h => by simp at h, fun h => absurd h.2 h3⟩, fun _ => ?_⟩
      exact ⟨rfl, rfl, ⟨_, rfl, by decide⟩, rfl, rfl⟩
    · have h3 : getStrength s.password ≥ 3 := by omega
      exact ⟨⟨fun _ => ⟨h1, h3⟩, fun _ => confirm_handleSubmit_sent s fetch h1 h3⟩,
        fun h => absurd ⟨h1, h3⟩ h⟩
  · rw [confirm_handleSubmit_mismatch s fetch h1]
    refine ⟨⟨fun h => by simp at h, fun h => absurd h.1 h1⟩, fun _ => ?_⟩
    exact ⟨rfl, rfl, ⟨_, rfl, by decide⟩, rfl, rfl⟩

/-- C1, at a concrete form: two different passwords are rejected without a request. -/
theorem C1_confirm_post_iff_local_checks_witness :
    (ResetPasswordConfirm.handleSubmit
        { password := units "Abcdef12", cpassword := units "Abcdef13", msg := .str "",
          type := "info", loading := false, email := some "a@b.com".toList,
          otp := some "123456".toList }
        (fun _ => .threw)).sent = [] ∧
    (ResetPasswordConfirm.handleSubmit
        { password := units "Abcdef12", cpassword := units "Abcdef13", msg := .str "",
          type := "info", loading := false, email := some "a@b.com".toList,
          otp := some "123456".toList }
        (fun _ => .threw)).state.type = "error" :=
  have h := (C1_confirm_post_iff_local_checks
    { password := units "Abcdef12", cpassword := units "Abcdef13", msg := .str "",
      type := "info", loading := false, email := some "a@b.com".toList,
      otp := some "123456".toList }
    (fun _ => .threw)).2 (by decide)
  ⟨h.1, h.2.1⟩

/-- C2: the claim that every password `handleSubmit` posts has `length >= 8` fails on
the code: with `password = cpassword = "Abcde1"` (six characters; upper case, lower case
and a digit give score 3) the POST is issued, whatever the server answers. -/
theorem C2_six_character_password_is_posted (fetch : ResetPasswordConfirm.Body → FetchResult) :
    (ResetPasswordConfirm.handleSubmit
        { password := units "Abcde1", cpassword := units "Abcde1", msg := .str "",
          type := "info", loading := false, email := some "a@b.com".toList,
          otp := some "123456".toList } fetch).sent =
      [{ email := some "a@b.com".toList, otp := some "123456".toList,
         newPassword := units "Abcde1" }] ∧
    getStrength (units "Abcde1") = 3 ∧ (units "Abcde1").length = 6 ∧
    ¬ (units "Abcde1").length ≥ 8 := by
  refine ⟨?_, by decide, by decide, by decide⟩
  exact confirm_handleSubmit_sent _ fetch rfl (by decide)

/-- C3: for every password `p`, `getStrength(p)` is the number of the six criteria that
`p` meets (length >= 8, an upper-case letter, a lower-case letter, a digit, one of the
symbols `@ $ ! % * ? &`, length >= 12), each counted once; so it lies between 0 and 6,
and it is 6 exactly when all six hold. -/
theorem C3_getStrength_counts_criteria (p : JSString) :
    getStrength p = criteriaMet p ∧ 0 ≤ getStrength p ∧ getStrength p ≤ 6 ∧
    (getStrength p = 6 ↔ ∀ k : Criterion, k.meets p) := by
  refine ⟨by rw [getStrength_eq_sum, criteriaMet_eq_sum], Nat.zero_le _,
    getStrength_le_six p, ?_⟩
  rw [getStrength_eq_sum]
  constructor
  · intro h k
    cases k <;> by_contra hk <;> simp only [hk, if_false] at h <;> split_ifs at h <;> omega
  · intro h
    simp only [h, if_true]

/-- C4: the label of `passwordRating(getStrength(p))` is "Weak" when `p` meets at most two
of the six criteria, "Good" when it meets exactly three, "Better" when it meets four or
five and "Strong" when it meets all six; and for every integer score `passwordRating`
returns one of these four labels. -/
theorem C4_passwordRating_labels (p : JSString) (score : Int) :
    (criteriaMet p ≤ 2 → (passwordRating (getStrength p)).label = "Weak") ∧
    (criteriaMet p = 3 → (passwordRating (getStrength p)).label = "Good") ∧
    (criteriaMet p = 4 ∨ criteriaMet p = 5 →
      (passwordRating (getStrength p)).label = "Better") ∧
    (criteriaMet p = 6 → (passwordRating (getStrength p)).label = "Strong") ∧
    (passwordRating score).label ∈ ["Weak", "Good", "Better", "Strong"] := by
  have hc : getStrength p = criteriaMet p := by rw [getStrength_eq_sum, criteriaMet_eq_sum]
  rw [hc]
  refine ⟨fun h => ?_, fun h => ?_, fun h => ?_, fun h => ?_, ?_⟩
  · have : ((criteriaMet p : Nat) : Int) ≤ 2 := by omega
    simp only [passwordRating, this, if_true]
  · simp only [passwordRating, h]; rfl
  · rcases h with h | h <;> simp only [passwordRating, h] <;> rfl
  · simp only [passwordRating, h]; rfl
  · unfold passwordRating
    split_ifs <;> simp

/-- C4, at the password `"Abcde1"`, which meets exactly three criteria. -/
theorem C4_passwordRating_labels_witness :
    criteriaMet (units "Abcde1") = 3 ∧
    (passwordRating (getStrength (units "Abcde1"))).label = "Good" :=
  ⟨by decide, (C4_passwordRating_labels (units "Abcde1") 3).2.1 (by decide)⟩

/-- The indicator of a criterion grows with the criterion. -/
theorem indicator_le_of_imp {P Q : Prop} [Decidable P] [Decidable Q] (h : P → Q) :
    (if P then 1 else 0) ≤ (if Q then 1 else 0 : Nat) := by
  by_cases hp : P
  · simp [hp, h hp]
  · simp [hp]

/-- C5: `getStrength` is monotonic in the six criteria: if `q` meets every criterion that
`p` meets then `getStrength(q) >= getStrength(p)`; in particular appending characters
never lowers the score, `getStrength(p ++ s) >= getStrength(p)`. -/
theorem C5_getStrength_monotone (p q s : JSString) :
    ((∀ k : Criterion, k.meets p → k.meets q) → getStrength q ≥ getStrength p) ∧
    getStrength (p ++ s) ≥ getStrength p := by
  have mono : ∀ a b : JSString, (∀ k : Criterion, k.meets a → k.meets b) →
      getStrength b ≥ getStrength a := by
    intro a b h
    have h1 := h .length8
    have h2 := h .uppercase
    have h3 := h .lowercase
    have h4 := h .digit
    have h5 := h .symbol
    have h6 := h .length12
    rw [getStrength_eq_sum, getStrength_eq_sum]
    have := indicator_le_of_imp h1
    have := indicator_le_of_imp h2
    have := indicator_le_of_imp h3
    have := indicator_le_of_imp h4
    have := indicator_le_of_imp h5
    have := indicator_le_of_imp h6
    omega
  refine ⟨mono p q, mono p (p ++ s) ?_⟩
  intro k hk
  cases k
  all_goals simp only [Criterion.meets, List.length_append, List.mem_append] at hk ⊢
  · omega
  · obtain ⟨c, hc, h⟩ := hk; exact ⟨c, Or.inl hc, h⟩
  · obtain ⟨c, hc, h⟩ := hk; exact ⟨c, Or.inl hc, h⟩
  · obtain ⟨c, hc, h⟩ := hk; exact ⟨c, Or.inl hc, h⟩
  · obtain ⟨c, hc, h⟩ := hk; exact ⟨c, Or.inl hc, h⟩
  · omega

/-- C5, at `p = "abc"` and `q = "abcd"`: `q` meets every criterion `p` meets. -/
theorem C5_getStrength_monotone_witness :
    (∀ k : Criterion, k.meets (units "abc") → k.meets (units "abcd")) ∧
    getStrength (units "abcd") ≥ getStrength (units "abc") :=
  have h : ∀ k : Criterion, k.meets (units "abc") → k.meets (units "abcd") := by
    intro k; cases k <;> decide
  ⟨h, (C5_getStrength_monotone (units "abc") (units "abcd") []).1 h⟩

/-- C6: the claim that the stored OTP never contains a non-digit fails on the code:
`replace(/\D/, "")` has no `g` flag and removes one character only.  Pasting `"12ab"` into
the empty field stores `"12b"`, and that is the `otp` the verify request then carries. -/
theorem C6_paste_keeps_a_letter (s : ResetPasswordOTP.State)
    (fetch : ResetPasswordOTP.VerifyBody → FetchResult) :
    (ResetPasswordOTP.onChange s (units "12ab")).otp = units "12b" ∧
    (units "12b").all isDigit = false ∧
    (ResetPasswordOTP.handleSubmit (ResetPasswordOTP.onChange s (units "12ab")) fetch).sent =
      [{ email := s.email, otp := units "12b" }] := by
  have h : ResetPasswordOTP.replaceNonDigit (units "12ab") = units "12b" := by decide
  refine ⟨h, by decide, ?_⟩
  simp only [ResetPasswordOTP.handleSubmit, ResetPasswordOTP.submitStart,
    ResetPasswordOTP.onChange, h]

/-! ### The URL round trip -/

theorem char_toNat_ofNat (n : Nat) (h : n < 55296) : (Char.ofNat n).toNat = n := by
  have hv : n.isValidChar := Or.inl h
  simp only [Char.ofNat, hv, dite_true, Char.ofNatAux, Char.toNat]
  rfl

theorem char_toNat_valid (c : Char) :
    c.toNat < 55296 ∨ (57343 < c.toNat ∧ c.toNat < 1114112) := c.valid

theorem percentDecode_cons_ne (b : Nat) (rest : List Nat) (h : b ≠ 37) :
    percentDecode (b :: rest) = b :: percentDecode rest := by
  match rest with
  | [] => rfl
  | [_] => rfl
  | _ :: _ :: _ => simp only [percentDecode, h, if_false]

theorem hexValue_hexDigit (d : Nat) (h : d < 16) : hexValue (hexDigit d) = some d := by
  unfold hexValue hexDigit
  split_ifs <;> first | omega | (congr 1; omega)

theorem percentDecode_percentByte (b : Nat) (rest : List Nat) (h : b < 256) :
    percentDecode (percentByte b ++ rest) = b :: percentDecode rest := by
  have h1 : b / 16 < 16 := by omega
  have h2 : b % 16 < 16 := by omega
  simp only [percentByte, List.cons_append, List.nil_append, percentDecode, if_true,
    hexValue_hexDigit _ h1, hexValue_hexDigit _ h2]
  congr 1
  omega

/-- Every byte of the UTF-8 form of a scalar value is below 256. -/
theorem utf8Char_lt (c : Char) : ∀ b ∈ utf8Char c, b < 256 := by
  have hv := char_toNat_valid c
  intro b hb
  simp only [utf8Char] at hb
  split_ifs at hb <;> simp only [List.mem_cons, List.mem_singleton, List.not_mem_nil, or_false] at hb <;> omega

theorem utf8DecodeFrom_cons (st : Utf8State) (b : Nat) (bs : List Nat) :
    utf8DecodeFrom st (b :: bs) = (utf8Step st b).1 ++ utf8DecodeFrom (utf8Step st b).2 bs := rfl

theorem utf8Step_start (b : Nat) : utf8Step .start b = utf8Lead b := rfl

theorem utf8Lead_ascii (b : Nat) (h : b ≤ 127) : utf8Lead b = ([Char.ofNat b], .start) := by
  simp only [utf8Lead, h, if_true]

theorem utf8Lead_two (b : Nat) (h : 194 ≤ b ∧ b ≤ 223) :
    utf8Lead b = ([], .pending (b % 32) 1 128 191) := by
  have h1 : ¬ b ≤ 127 := by omega
  simp only [utf8Lead, h1, h, and_self, if_true, if_false]

theorem utf8Lead_three (b : Nat) (h : 224 ≤ b ∧ b ≤ 239) :
    utf8Lead b = ([], .pending (b % 16) 2 (if b = 224 then 160 else 128)
      (if b = 237 then 159 else 191)) := by
  have h1 : ¬ b ≤ 127 := by omega
  have h2 : ¬ (194 ≤ b ∧ b ≤ 223) := by omega
  simp only [utf8Lead, h1, h2, h, and_self, if_true, if_false]

theorem utf8Lead_four (b : Nat) (h : 240 ≤ b ∧ b ≤ 244) :
    utf8Lead b = ([], .pending (b % 8) 3 (if b = 240 then 144 else 128)
      (if b = 244 then 143 else 191)) := by
  have h1 : ¬ b ≤ 127 := by omega
  have h2 : ¬ (194 ≤ b ∧ b ≤ 223) := by omega
  have h3 : ¬ (224 ≤ b ∧ b ≤ 239) := by omega
  simp only [utf8Lead, h1, h2, h3, h, and_self, if_true, if_false]

theorem utf8Step_last (cp lower upper b : Nat) (h : lower ≤ b ∧ b ≤ upper) :
    utf8Step (.pending cp 1 lower upper) b = ([Char.ofNat (cp * 64 + b % 64)], .start) := by
  simp only [utf8Step, h, and_self, if_true]

theorem utf8Step_more (cp needed lower upper b : Nat) (h : lower ≤ b ∧ b ≤ upper)
    (hn : needed ≠ 1) :
    utf8Step (.pending cp needed lower upper) b =
      ([], .pending (cp * 64 + b % 64) (needed - 1) 128 191) := by
  simp only [utf8Step, h, and_self, if_true, hn, if_false]

/-- The decoder reads back the bytes of one scalar value. -/
theorem utf8DecodeFrom_utf8Char (c : Char) (rest : List Nat) :
    utf8DecodeFrom .start (utf8Char c ++ rest) = c :: utf8DecodeFrom .start rest := by
  have hv := char_toNat_valid c
  have hc := Char.ofNat_toNat c
  simp only [utf8Char]
  generalize c.toNat = n at hv hc
  split_ifs with h1 h2 h3
  · rw [List.singleton_append, utf8DecodeFrom_cons, utf8Step_start,
      utf8Lead_ascii n (by omega), hc]
    rfl
  · simp only [List.cons_append, List.nil_append]
    rw [utf8DecodeFrom_cons, utf8Step_start, utf8Lead_two _ (by omega), List.nil_append,
      utf8DecodeFrom_cons, utf8Step_last _ _ _ _ (by omega)]
    have a : (192 + n / 64) % 32 * 64 + (128 + n % 64) % 64 = n := by omega
    rw [a, hc]
    rfl
  · simp only [List.cons_append, List.nil_append]
    rw [utf8DecodeFrom_cons, utf8Step_start, utf8Lead_three _ (by omega), List.nil_append,
      utf8DecodeFrom_cons, utf8Step_more _ _ _ _ _ (by split_ifs <;> omega) (by decide),
      List.nil_append, utf8DecodeFrom_cons, utf8Step_last _ _ _ _ (by omega)]
    have a : ((224 + n / 4096) % 16 * 64 + (128 + n / 64 % 64) % 64) * 64 +
        (128 + n % 64) % 64 = n := by omega
    rw [a, hc]
    rfl
  · simp only [List.cons_append, List.nil_append]
    rw [utf8DecodeFrom_cons, utf8Step_start, utf8Lead_four _ (by omega), List.nil_append,
      utf8DecodeFrom_cons, utf8Step_more _ _ _ _ _ (by split_ifs <;> omega) (by decide),
      List.nil_append, utf8DecodeFrom_cons, utf8Step_more _ _ _ _ _ (by omega) (by decide),
      List.nil_append, utf8DecodeFrom_cons, utf8Step_last _ _ _ _ (by omega)]
    have a : (((240 + n / 262144) % 8 * 64 + (128 + n / 4096 % 64) % 64) * 64 +
        (128 + n / 64 % 64) % 64) * 64 + (128 + n % 64) % 64 = n := by omega
    rw [a, hc]
    rfl

/-- Decoding the UTF-8 form of a scalar value string gives the string back. -/
theorem utf8Decode_utf8Encode (s : USVString) : utf8Decode (utf8Encode s) = s := by
  unfold utf8Decode utf8Encode
  induction s with
  | nil => rfl
  | cons c s ih => rw [List.flatMap_cons, utf8DecodeFrom_utf8Char, ih]

theorem isUnescaped_lt (n : Nat) (h : isUnescaped n = true) : n < 128 ∧ n ≠ 37 ∧ n ≠ 43 ∧
    n ≠ 38 ∧ n ≠ 61 ∧ n ≠ 35 ∧ n ≠ 63 := by
  simp only [isUnescaped, isUpper, isLower, isDigit, Bool.or_eq_true, Bool.and_eq_true,
    decide_eq_true_eq, beq_iff_eq] at h
  omega

theorem isUriUnit_spec (n : Nat) (h : isUriUnit n = true) : n < 128 ∧ n ≠ 43 ∧
    n ≠ 38 ∧ n ≠ 61 ∧ n ≠ 35 ∧ n ≠ 63 := by
  simp only [isUriUnit, Bool.or_eq_true, beq_iff_eq] at h
  rcases h with h | h
  · have := isUnescaped_lt n h; omega
  · omega

theorem isDigit_isUriUnit (n : Nat) (h : isDigit n = true) : isUriUnit n = true := by
  simp only [isUriUnit, isUnescaped, h, Bool.true_or, Bool.or_true]

theorem hexDigit_isUriUnit (d : Nat) (h : d < 16) : isUriUnit (hexDigit d) = true := by
  simp only [isUriUnit, isUnescaped, isUpper, isLower, isDigit, hexDigit, Bool.or_eq_true,
    Bool.and_eq_true, decide_eq_true_eq, beq_iff_eq]
  split_ifs <;> omega

theorem percentByte_isUriUnit (b : Nat) (h : b < 256) : ∀ u ∈ percentByte b, isUriUnit u = true := by
  intro u hu
  simp only [percentByte, List.mem_cons, List.mem_singleton, List.not_mem_nil, or_false] at hu
  rcases hu with rfl | rfl | rfl
  · rfl
  · exact hexDigit_isUriUnit _ (by omega)
  · exact hexDigit_isUriUnit _ (by omega)

/-- Every code unit `encodeURIComponent` appends for a character is unescaped or `%`. -/
theorem encodeChar_isUriUnit (c : Char) : ∀ u ∈ encodeChar c, isUriUnit u = true := by
  intro u hu
  unfold encodeChar at hu
  split_ifs at hu with h
  · simp only [List.mem_singleton] at hu
    subst hu
    simp only [isUriUnit, h, Bool.true_or]
  · simp only [List.mem_flatMap] at hu
    obtain ⟨b, hb, hub⟩ := hu
    exact percentByte_isUriUnit b (utf8Char_lt c b hb) u hub

theorem encode_isUriUnit (s : USVString) :
    ∀ u ∈ encodeURIComponent (some s), isUriUnit u = true := by
  intro u hu
  simp only [encodeURIComponent, List.mem_flatMap] at hu
  obtain ⟨c, _, huc⟩ := hu
  exact encodeChar_isUriUnit c u huc

theorem percentDecode_flatMap_percentByte (bs rest : List Nat) (h : ∀ b ∈ bs, b < 256) :
    percentDecode (bs.flatMap percentByte ++ rest) = bs ++ percentDecode rest := by
  induction bs with
  | nil => rfl
  | cons b bs ih =>
    rw [List.flatMap_cons, List.append_assoc,
      percentDecode_percentByte b _ (h b (List.mem_cons_self _ _)),
      ih (fun x hx => h x (List.mem_cons_of_mem _ hx))]
    rfl

/-- Percent-decoding what `encodeURIComponent` made of a character gives its UTF-8 bytes. -/
theorem percentDecode_encodeChar (c : Char) (rest : List Nat) :
    percentDecode (encodeChar c ++ rest) = utf8Char c ++ percentDecode rest := by
  unfold encodeChar
  split_ifs with h
  · have hu := isUnescaped_lt _ h
    have : utf8Char c = [c.toNat] := by simp only [utf8Char, hu.1, if_true]
    rw [this, List.singleton_append, percentDecode_cons_ne _ _ hu.2.1]
    rfl
  · exact percentDecode_flatMap_percentByte _ _ (utf8Char_lt c)

/-- Percent-decoding `encodeURIComponent(s)` gives the UTF-8 form of `s`. -/
theorem percentDecode_encodeURIComponent (s : USVString) :
    percentDecode (encodeURIComponent (some s)) = utf8Encode s := by
  simp only [encodeURIComponent, utf8Encode]
  induction s with
  | nil => rfl
  | cons c s ih => rw [List.flatMap_cons, List.flatMap_cons, percentDecode_encodeChar, ih]

/-- Percent-decoding leaves bytes alone when there is no `%`. -/
theorem percentDecode_of_no_percent (bs : List Nat) (h : ∀ b ∈ bs, b ≠ 37) :
    percentDecode bs = bs := by
  induction bs with
  | nil => rfl
  | cons b bs ih =>
    rw [percentDecode_cons_ne _ _ (h b (List.mem_cons_self _ _)),
      ih (fun x hx => h x (List.mem_cons_of_mem _ hx))]

/-- The decoder maps bytes below 128 to the characters with these codes. -/
theorem utf8Decode_ascii (bs : List Nat) (h : ∀ b ∈ bs, b < 128) :
    utf8Decode bs = bs.map Char.ofNat := by
  unfold utf8Decode
  induction bs with
  | nil => rfl
  | cons b bs ih =>
    rw [utf8DecodeFrom_cons, utf8Step_start,
      utf8Lead_ascii b (by have := h b (List.mem_cons_self _ _); omega),
      ih (fun x hx => h x (List.mem_cons_of_mem _ hx))]
    rfl

/-- The UTF-16 form of characters below 128 is the list of their codes. -/
theorem utf16_map_ofNat (bs : List Nat) (h : ∀ b ∈ bs, b < 128) :
    utf16 (bs.map Char.ofNat) = bs := by
  unfold utf16
  induction bs with
  | nil => rfl
  | cons b bs ih =>
    have hb := h b (List.mem_cons_self _ _)
    have ht : (Char.ofNat b).toNat = b := char_toNat_ofNat b (by omega)
    rw [List.map_cons, List.flatMap_cons, ih (fun x hx => h x (List.mem_cons_of_mem _ hx))]
    simp only [utf16Char, ht]
    rw [if_pos (by omega)]
    rfl

/-- A string of code units below 128 is its own UTF-8 form. -/
theorem utf8Encode_toUSV_ascii (l : JSString) (h : ∀ u ∈ l, u < 128) :
    utf8Encode (toUSV l) = l := by
  induction l using toUSV.induct with
  | case1 => rfl
  | case2 c =>
    have hc := h c (List.mem_cons_self _ _)
    have h1 : isHighSurrogate c = false := by
      simp only [isHighSurrogate, Bool.and_eq_false_imp, decide_eq_true_eq, decide_eq_false_iff_not]
      omega
    have h2 : isLowSurrogate c = false := by
      simp only [isLowSurrogate, Bool.and_eq_false_imp, decide_eq_true_eq, decide_eq_false_iff_not]
      omega
    simp only [toUSV, h1, h2, Bool.or_self, Bool.false_eq_true, if_false, utf8Encode,
      List.flatMap_cons, List.flatMap_nil, utf8Char, char_toNat_ofNat c (by omega), hc, if_true,
      List.append_nil]
  | case3 c d rest hp _ =>
    exfalso
    have hc := h c (List.mem_cons_self _ _)
    simp only [isHighSurrogate, Bool.and_eq_true, decide_eq_true_eq] at hp
    omega
  | case4 c d rest _ hs _ =>
    exfalso
    have hc := h c (List.mem_cons_self _ _)
    simp only [isHighSurrogate, isLowSurrogate, Bool.or_eq_true, Bool.and_eq_true,
      decide_eq_true_eq] at hs
    omega
  | case5 c d rest hp hs ih =>
    have hc := h c (List.mem_cons_self _ _)
    have ih := ih (fun x hx => h x (List.mem_cons_of_mem _ hx))
    rw [toUSV, if_neg hp, if_neg hs]
    simp only [utf8Encode, List.flatMap_cons] at ih ⊢
    rw [ih]
    simp only [utf8Char, char_toNat_ofNat c (by omega), hc, if_true, List.singleton_append]

theorem takeWhile_append_stop {α : Type} (p : α → Bool) (A B : List α) (x : α)
    (hA : ∀ a ∈ A, p a = true) (hx : p x = false) : (A ++ x :: B).takeWhile p = A := by
  induction A with
  | nil => simp only [List.nil_append, List.takeWhile_cons, hx]; rfl
  | cons a A ih =>
    rw [List.cons_append, List.takeWhile_cons, hA a (List.mem_cons_self _ _),
      ih (fun y hy => hA y (List.mem_cons_of_mem _ hy))]
    rfl

theorem dropWhile_append_stop {α : Type} (p : α → Bool) (A B : List α) (x : α)
    (hA : ∀ a ∈ A, p a = true) (hx : p x = false) : (A ++ x :: B).dropWhile p = x :: B := by
  induction A with
  | nil => simp only [List.nil_append, List.dropWhile_cons, hx]; rfl
  | cons a A ih =>
    rw [List.cons_append, List.dropWhile_cons, hA a (List.mem_cons_self _ _)]
    exact ih (fun y hy => hA y (List.mem_cons_of_mem _ hy))

theorem takeWhile_all {α : Type} (p : α → Bool) (A : List α) (hA : ∀ a ∈ A, p a = true) :
    A.takeWhile p = A := by
  induction A with
  | nil => rfl
  | cons a A ih =>
    rw [List.takeWhile_cons, hA a (List.mem_cons_self _ _),
      ih (fun y hy => hA y (List.mem_cons_of_mem _ hy))]
    rfl

theorem splitOnByte_of_no_sep (sep : Nat) (l : List Nat) (h : ∀ b ∈ l, b ≠ sep) :
    splitOnByte sep l = [l] := by
  induction l with
  | nil => rfl
  | cons b l ih =>
    rw [splitOnByte, if_neg (h b (List.mem_cons_self _ _)),
      ih (fun y hy => h y (List.mem_cons_of_mem _ hy))]

theorem splitOnByte_append_sep (sep : Nat) (A B : List Nat) (h : ∀ b ∈ A, b ≠ sep) :
    splitOnByte sep (A ++ sep :: B) = A :: splitOnByte sep B := by
  induction A with
  | nil => simp only [List.nil_append, splitOnByte, if_true]
  | cons b A ih =>
    rw [List.cons_append, splitOnByte, if_neg (h b (List.mem_cons_self _ _)),
      ih (fun y hy => h y (List.mem_cons_of_mem _ hy))]

theorem map_plus_of_no_plus (l : List Nat) (h : ∀ b ∈ l, b ≠ 43) :
    l.map (fun b => if b = 43 then 32 else b) = l := by
  induction l with
  | nil => rfl
  | cons b l ih =>
    rw [List.map_cons, if_neg (h b (List.mem_cons_self _ _)),
      ih (fun y hy => h y (List.mem_cons_of_mem _ hy))]

/-- The pair the parser makes of `name=value` when the name is plain ASCII without
separators and the value is made of unescaped units and `%`. -/
theorem parsePair_of_name_value (name value : List Nat)
    (hn : ∀ b ∈ name, b < 128 ∧ b ≠ 61 ∧ b ≠ 43 ∧ b ≠ 37)
    (hv : ∀ b ∈ value, b ≠ 43) :
    parsePair (name ++ 61 :: value) =
      (name.map Char.ofNat, utf8Decode (percentDecode value)) := by
  have h1 : (name ++ 61 :: value).takeWhile (fun b => b != 61) = name :=
    takeWhile_append_stop _ _ _ _ (fun a ha => by simpa using (hn a ha).2.1) (by simp)
  have h2 : (name ++ 61 :: value).dropWhile (fun b => b != 61) = 61 :: value :=
    dropWhile_append_stop _ _ _ _ (fun a ha => by simpa using (hn a ha).2.1) (by simp)
  simp only [parsePair, h1, h2, List.drop_succ_cons, List.drop_zero]
  rw [map_plus_of_no_plus name (fun b hb => (hn b hb).2.2.1), map_plus_of_no_plus value hv,
    percentDecode_of_no_percent name (fun b hb => (hn b hb).2.2.2),
    utf8Decode_ascii name (fun b hb => (hn b hb).1)]

theorem units_path : units "/reset-password/confirm?email=" =
    units "/reset-password/confirm" ++ 63 :: units "email=" := by decide

theorem units_email : units "email=" = units "email" ++ [61] := by decide
theorem units_otp : units "&otp=" = 38 :: (units "otp" ++ [61]) := by decide

/-- The search string of the URL `handleSubmit` builds, for a digits-only OTP. -/
theorem locationSearch_confirmUrl (e : USVString) (o : JSString)
    (ho : ∀ u ∈ o, isDigit u = true) :
    locationSearch (ResetPasswordOTP.confirmUrl (some e) o) =
      63 :: (units "email" ++ 61 :: encodeURIComponent (some e)
        ++ 38 :: (units "otp" ++ 61 :: o)) := by
  have hall : ∀ u ∈ ResetPasswordOTP.confirmUrl (some e) o, (u != 35) = true := by
    intro u hu
    simp only [ResetPasswordOTP.confirmUrl, List.mem_append] at hu
    rcases hu with ((hu | hu) | hu) | hu
    · revert u; decide
    · have := isUriUnit_spec u (encode_isUriUnit e u hu); simp; omega
    · revert u; decide
    · have := isUriUnit_spec u (isDigit_isUriUnit u (ho u hu)); simp; omega
  unfold locationSearch
  simp only [takeWhile_all _ _ hall]
  simp only [ResetPasswordOTP.confirmUrl, units_path, List.append_assoc, List.cons_append]
  rw [dropWhile_append_stop _ _ _ _ (by decide) (by decide), units_email, units_otp]
  simp only [List.append_assoc, List.cons_append, List.nil_append]

theorem paramsOf_confirmUrl (e : USVString) (o : JSString)
    (ho : ∀ u ∈ o, isDigit u = true) :
    URLSearchParams (locationSearch (ResetPasswordOTP.confirmUrl (some e) o)) =
      [("email".toList, e), ("otp".toList, o.map Char.ofNat)] := by
  have he := fun u hu => isUriUnit_spec u (encode_isUriUnit e u hu)
  have hd := fun u hu => isUriUnit_spec u (isDigit_isUriUnit u (ho u hu))
  have hA : ∀ b ∈ units "email" ++ 61 :: encodeURIComponent (some e), b < 128 ∧ b ≠ 38 := by
    intro b hb
    simp only [List.mem_append, List.mem_cons] at hb
    rcases hb with hb | rfl | hb
    · revert b; decide
    · decide
    · have := he b hb; omega
  have hB : ∀ b ∈ units "otp" ++ 61 :: o, b < 128 ∧ b ≠ 38 := by
    intro b hb
    simp only [List.mem_append, List.mem_cons] at hb
    rcases hb with hb | rfl | hb
    · revert b; decide
    · decide
    · have := hd b hb; omega
  have hascii : ∀ u ∈ units "email" ++ 61 :: encodeURIComponent (some e)
        ++ 38 :: (units "otp" ++ 61 :: o), u < 128 := by
    intro u hu
    rw [List.mem_append, List.mem_cons] at hu
    rcases hu with hu | rfl | hu
    · exact (hA u hu).1
    · decide
    · exact (hB u hu).1
  rw [locationSearch_confirmUrl e o ho]
  simp only [URLSearchParams]
  rw [utf8Encode_toUSV_ascii _ hascii, splitOnByte_append_sep _ _ _ (fun b hb => (hA b hb).2),
    splitOnByte_of_no_sep _ _ (fun b hb => (hB b hb).2)]
  have hne1 : (units "email" ++ 61 :: encodeURIComponent (some e)).isEmpty = false := rfl
  have hne2 : (units "otp" ++ 61 :: o).isEmpty = false := rfl
  simp only [List.filter, hne1, hne2, Bool.not_false, List.map_cons, List.map_nil]
  rw [parsePair_of_name_value _ _ (by decide) (fun b hb => (he b hb).2.1),
    parsePair_of_name_value _ _ (by decide) (fun b hb => (hd b hb).2.1),
    percentDecode_encodeURIComponent, utf8Decode_utf8Encode,
    percentDecode_of_no_percent o (fun b hb => by
      have := ho b hb
      simp only [isDigit, Bool.and_eq_true, decide_eq_true_eq] at this
      omega),
    utf8Decode_ascii o (fun b hb => (hd b hb).1)]
  have n1 : (units "email").map Char.ofNat = "email".toList := by decide
  have n2 : (units "otp").map Char.ofNat = "otp".toList := by decide
  rw [n1, n2]

/-- A pair the server's `VerifyOtp` accepts has an email and a digits-only code. -/
theorem verifyOtp_accepts (records : List OtpRecord) (now : Nat) (email : Option USVString)
    (code : JSString) (hcodes : ∀ r ∈ records, r.code.all isDigit = true)
    (h : VerifyOtp records now email code = true) :
    (∃ e, email = some e) ∧ ∀ u ∈ code, isDigit u = true := by
  simp only [VerifyOtp, List.any_eq_true, Bool.and_eq_true, decide_eq_true_eq] at h
  obtain ⟨r, hr, ⟨⟨⟨he, hc⟩, _⟩, _⟩⟩ := h
  refine ⟨⟨r.email, he⟩, ?_⟩
  have := hcodes r hr
  rw [List.all_eq_true] at this
  rw [hc]
  exact this

/-- `handleSubmit` schedules a navigation only after a response with `res.ok`, and then
to the URL built from the `email` and `otp` it posted. -/
theorem otp_handleSubmit_navigate (s : ResetPasswordOTP.State)
    (fetch : ResetPasswordOTP.VerifyBody → FetchResult) (url : JSString)
    (h : (ResetPasswordOTP.handleSubmit s fetch).navigate = some url) :
    (∃ d, fetch { email := s.email, otp := s.otp } = .response true d) ∧
    url = ResetPasswordOTP.confirmUrl s.email s.otp := by
  simp only [ResetPasswordOTP.handleSubmit, ResetPasswordOTP.submitStart] at h
  generalize fetch { email := s.email, otp := s.otp } = r at h ⊢
  match r with
  | .threw => simp [ResetPasswordOTP.submitFinish] at h
  | .response true d =>
    simp only [ResetPasswordOTP.submitFinish, Option.some.injEq] at h
    exact ⟨⟨d, rfl⟩, h.symm⟩
  | .response false .null => simp [ResetPasswordOTP.submitFinish] at h
  | .response false (.value m) => simp [ResetPasswordOTP.submitFinish] at h

/-- Every request `ResetPasswordConfirm.handleSubmit` posts carries the `email` and `otp`
of the state and the password of the form. -/
theorem confirm_handleSubmit_body (c : ResetPasswordConfirm.State)
    (fetch : ResetPasswordConfirm.Body → FetchResult) (body : ResetPasswordConfirm.Body)
    (h : body ∈ (ResetPasswordConfirm.handleSubmit c fetch).sent) :
    body = { email := c.email, otp := c.otp, newPassword := c.password } := by
  by_cases h1 : c.password = c.cpassword
  · by_cases h2 : getStrength c.password < 3
    · rw [confirm_handleSubmit_weak c fetch h1 h2] at h
      simp at h
    · rw [confirm_handleSubmit_sent c fetch h1 (by omega)] at h
      simpa using h
  · rw [confirm_handleSubmit_mismatch c fetch h1] at h
    simp at h

theorem paramsGet_email (e o : USVString) :
    paramsGet [("email".toList, e), ("otp".toList, o)] "email" = some e := by
  have h : decide ("email".toList = "email".toList) = true := by decide
  simp only [paramsGet, List.find?, h, decide_True, Option.map_some']

theorem paramsGet_otp (e o : USVString) :
    paramsGet [("email".toList, e), ("otp".toList, o)] "otp" = some o := by
  have hne : decide ("email".toList = "otp".toList) = false := by decide
  have h : decide ("otp".toList = "otp".toList) = true := by decide
  simp only [paramsGet, List.find?, h, hne, decide_True, Option.map_some']

/-- C7: round trip of the reset session through the URL.  The server answers the verify
request with success only for a pair its `VerifyOtp` accepts, and its codes are numeric.
Then, whenever `ResetPasswordOTP.handleSubmit` has posted `(email, otp)` and scheduled the
navigation, the URL is `/reset-password/confirm?email=encodeURIComponent(email)&otp=otp`,
the pair `ResetPasswordConfirm` reads back from it with `URLSearchParams` is the pair that
was verified, and every confirm request carries that pair together with the password of
the form as `newPassword`. -/
theorem C7_reset_session_round_trip (records : List OtpRecord) (now : Nat)
    (s : ResetPasswordOTP.State) (fetch : ResetPasswordOTP.VerifyBody → FetchResult)
    (hcodes : ∀ r ∈ records, r.code.all isDigit = true)
    (hserver : ∀ b d, fetch b = .response true d → VerifyOtp records now b.email b.otp = true)
    (url : JSString) (hnav : (ResetPasswordOTP.handleSubmit s fetch).navigate = some url)
    (c : ResetPasswordConfirm.State)
    (hemail : c.email = (ResetPasswordConfirm.mount url).email)
    (hotp : c.otp = (ResetPasswordConfirm.mount url).otp)
    (fetch' : ResetPasswordConfirm.Body → FetchResult) (body : ResetPasswordConfirm.Body)
    (hbody : body ∈ (ResetPasswordConfirm.handleSubmit c fetch').sent) :
    (ResetPasswordOTP.handleSubmit s fetch).sent = [{ email := s.email, otp := s.otp }] ∧
    url = ResetPasswordOTP.confirmUrl s.email s.otp ∧
    (ResetPasswordConfirm.mount url).email = s.email ∧
    (ResetPasswordConfirm.mount url).otp.map utf16 = some s.otp ∧
    body.email = s.email ∧ body.otp.map utf16 = some s.otp ∧
    body.newPassword = c.password := by
  obtain ⟨⟨d, hd⟩, hurl⟩ := otp_handleSubmit_navigate s fetch url hnav
  obtain ⟨⟨e, he⟩, hdigits⟩ := verifyOtp_accepts records now s.email s.otp hcodes
    (hserver _ d hd)
  have hparams := paramsOf_confirmUrl e s.otp hdigits
  have hascii : ∀ u ∈ s.otp, u < 128 := fun u hu =>
    (isUriUnit_spec u (isDigit_isUriUnit u (hdigits u hu))).1
  have m1 : (ResetPasswordConfirm.mount url).email = s.email := by
    rw [hurl, he]
    unfold ResetPasswordConfirm.mount
    simp only [hparams]
    exact paramsGet_email _ _
  have m2 : (ResetPasswordConfirm.mount url).otp.map utf16 = some s.otp := by
    rw [hurl, he]
    unfold ResetPasswordConfirm.mount
    simp only [hparams]
    rw [paramsGet_otp, Option.map_some', utf16_map_ofNat s.otp hascii]
  have hb := confirm_handleSubmit_body c fetch' body hbody
  refine ⟨rfl, hurl, m1, m2, ?_, ?_, ?_⟩
  · rw [hb, hemail, m1]
  · rw [hb, hotp, m2]
  · rw [hb]

/-- C7, for the email `a+b@é.com` and the code `123456` held by `sampleRecords`. -/
theorem C7_reset_session_round_trip_witness :
    (ResetPasswordConfirm.mount sampleUrl).email = some "a+b@é.com".toList ∧
    (ResetPasswordConfirm.mount sampleUrl).otp.map utf16 = some (units "123456") :=
  have h := C7_reset_session_round_trip sampleRecords 30 sampleOtpState sampleVerify
    (by decide)
    (fun b d hb => by
      unfold sampleVerify at hb
      by_cases hv : VerifyOtp sampleRecords 30 b.email b.otp = true
      · exact hv
      · rw [if_neg hv] at hb
        cases hb)
    sampleUrl (by decide) sampleConfirmState rfl rfl (fun _ => .threw)
    { email := sampleConfirmState.email, otp := sampleConfirmState.otp,
      newPassword := units "Abcdef12" }
    (by
      rw [confirm_handleSubmit_sent sampleConfirmState _ rfl (by decide)]
      exact List.mem_singleton.2 rfl)
  ⟨h.2.2.1, h.2.2.2.1⟩

/-- The `otp` is put into the URL as it is: an `&` in it would end the parameter.  The
round trip above rests on verified codes being numeric. -/
theorem confirmUrl_otp_is_not_encoded :
    (ResetPasswordConfirm.mount
      (ResetPasswordOTP.confirmUrl (some "a@b.com".toList) (units "1&2"))).otp =
      some "1".toList := by decide

/-! ### The resend cooldown and the three handlers -/

section Handlers

open ResetPasswordOTP

/-- Completing the verify request never touches the timer. -/
theorem submitFinish_timer (s : State) (b : VerifyBody) (r : FetchResult) :
    (submitFinish s b r).1.timer = s.timer := by
  unfold submitFinish
  split <;> rfl

/-- Completing the resend request without `res.ok` leaves the timer alone. -/
theorem resendFinish_timer_of_not_ok (s : State) (r : FetchResult)
    (h : ∀ d, r ≠ .response true d) : (resendFinish s r).timer = s.timer := by
  unfold resendFinish
  split
  · rfl
  · exact absurd rfl (h _)
  · rfl
  · rfl

/-- The invariant of the countdown: the timer and the ticks since the last restart add
up to 60, and the timer is not negative. -/
theorem run_timer_invariant (evs : List Event) :
    ∀ (s s' : State) (n : Nat), 0 ≤ s.timer → s.timer + n = 60 → run s evs = some s' →
      0 ≤ s'.timer ∧ s'.timer + ticksSinceRestart n evs = 60 := by
  induction evs with
  | nil =>
    intro s s' n h0 hn hrun
    simp only [run, Option.some.injEq] at hrun
    subst hrun
    exact ⟨h0, hn⟩
  | cons e es ih =>
    intro s s' n h0 hn hrun
    rw [run] at hrun
    split_ifs at hrun with hen
    cases e with
    | tick =>
      simp only [enabled, decide_eq_true_eq] at hen
      have := ih (step s .tick) s' (n + 1) (by simp only [step, tick]; omega)
        (by simp only [step, tick]; push_cast; omega) hrun
      simpa only [ticksSinceRestart] using this
    | change v => exact ih (step s (.change v)) s' n h0 hn hrun
    | submit => exact ih (step s .submit) s' n h0 hn hrun
    | submitDone r =>
      have ht : (step s (.submitDone r)).timer = s.timer := submitFinish_timer _ _ _
      have := ih _ s' n (by rw [ht]; exact h0) (by rw [ht]; exact hn) hrun
      simpa only [ticksSinceRestart] using this
    | resend => exact ih (step s .resend) s' n h0 hn hrun
    | resendDone r =>
      match r with
      | .threw =>
        have ht : (step s (.resendDone .threw)).timer = s.timer := rfl
        exact ih _ s' n (by rw [ht]; exact h0) (by rw [ht]; exact hn) hrun
      | .response true d =>
        have ht : (step s (.resendDone (.response true d))).timer = 60 := rfl
        exact ih _ s' 0 (by rw [ht]; decide) (by rw [ht]; rfl) hrun
      | .response false d =>
        have ht : (step s (.resendDone (.response false d))).timer = s.timer :=
          resendFinish_timer_of_not_ok s _ (fun _ h => by cases h)
        exact ih _ s' n (by rw [ht]; exact h0) (by rw [ht]; exact hn) hrun

/-- C8: resend cooldown.  In every state reachable from the initial state of the OTP page
(timer = 60) by ticks, input changes, verify submissions and resend requests with their
outcomes: the timer is never below 0; a tick, which can happen only while the timer is
positive, lowers it by exactly 1 and not below 0; and the resend action can be invoked
only when the timer is 0, by which time at least 60 ticks have elapsed since the page was
opened or, if a resend has succeeded, since the last successful resend. -/
theorem C8_resend_cooldown (path : JSString) (evs : List Event) (s : State)
    (hrun : run (mount path) evs = some s) :
    0 ≤ s.timer ∧
    (enabled s .tick = true →
      (step s .tick).timer = s.timer - 1 ∧ 0 ≤ (step s .tick).timer) ∧
    (enabled s .resend = true → s.timer = 0 ∧ 60 ≤ ticksSinceRestart 0 evs) := by
  have h0 : (0 : Int) ≤ (mount path).timer := by show (0 : Int) ≤ 60; decide
  have hn : (mount path).timer + ((0 : Nat) : Int) = 60 := rfl
  obtain ⟨h1, h2⟩ := run_timer_invariant evs (mount path) s 0 h0 hn hrun
  refine ⟨h1, fun ht => ?_, fun hr => ?_⟩
  · simp only [enabled, decide_eq_true_eq] at ht
    refine ⟨rfl, ?_⟩
    show 0 ≤ s.timer - 1
    omega
  · simp only [enabled, Bool.and_eq_true, Bool.not_eq_true', decide_eq_false_iff_not] at hr
    obtain ⟨hr1, _⟩ := hr
    have ht : s.timer = 0 := by omega
    exact ⟨ht, by omega⟩

/-- C8, after sixty ticks on a freshly opened page: the resend button can be clicked. -/
theorem C8_resend_cooldown_witness :
    enabled { mount (units "/reset-password/otp?email=a%40b.com") with timer := 0 } .resend
      = true ∧
    60 ≤ ticksSinceRestart 0 (List.replicate 60 Event.tick) :=
  have h := C8_resend_cooldown (units "/reset-password/otp?email=a%40b.com")
    (List.replicate 60 Event.tick)
    { mount (units "/reset-password/otp?email=a%40b.com") with timer := 0 } (by rfl)
  ⟨by decide, (h.2.2 (by decide)).2⟩

/-- C9: the claim that the timer has been restarted at 60 whenever `handleResend` has
completed fails when the request does not succeed: with the timer at 0 and the server
answering with a non-success status, the timer is still 0 afterwards. -/
theorem C9_failed_resend_leaves_timer_at_zero :
    ({ sampleOtpState with timer := 0 } : State).timer = 0 ∧
    (handleResend { sampleOtpState with timer := 0 }
      (fun _ => .response false (.value (.str "User not found")))).state.timer = 0 ∧
    (handleResend { sampleOtpState with timer := 0 }
      (fun _ => .response false (.value (.str "User not found")))).state.timer ≠ 60 := by
  decide

/-- C9, amended: whenever `handleResend` is invoked while the timer is zero, it posts the
request; once the request has completed with `res.ok` the timer has been restarted at 60,
and once it has completed in any other way the timer is still zero. -/
theorem C9_resend_restarts_timer_on_success (s : State) (fetch : RequestBody → FetchResult)
    (h0 : s.timer = 0) :
    (handleResend s fetch).sent = [{ email := s.email }] ∧
    ((∃ d, fetch { email := s.email } = .response true d) →
      (handleResend s fetch).state.timer = 60) ∧
    ((∀ d, fetch { email := s.email } ≠ .response true d) →
      (handleResend s fetch).state.timer = 0) := by
  refine ⟨rfl, fun ⟨d, hd⟩ => ?_, fun h => ?_⟩
  · simp only [handleResend, resendStart, hd]
    rfl
  · simp only [handleResend, resendStart]
    rw [resendFinish_timer_of_not_ok _ _ h]
    exact h0

/-- C9, amended, at a page whose timer has run out and a server that accepts. -/
theorem C9_resend_restarts_timer_on_success_witness :
    (handleResend { sampleOtpState with timer := 0 }
      (fun _ => .response true (.value .undefined))).state.timer = 60 :=
  (C9_resend_restarts_timer_on_success { sampleOtpState with timer := 0 }
    (fun _ => .response true (.value .undefined)) rfl).2.1 ⟨_, rfl⟩

/-- C10: business errors are surfaced verbatim.  For each of the three handlers (verify,
request, confirm), when the server answers with a non-success status and a JSON body
whose `msg` is a non-empty string `m`, the message is exactly `m` with type `"error"`, no
navigation is scheduled and the timer keeps its value. -/
theorem C10_business_errors_verbatim (m : String) (hm : m ≠ "")
    (s : State) (verify : VerifyBody → FetchResult) (request : RequestBody → FetchResult)
    (c : ResetPasswordConfirm.State) (confirm : ResetPasswordConfirm.Body → FetchResult)
    (hverify : verify { email := s.email, otp := s.otp } = .response false (.value (.str m)))
    (hrequest : request { email := s.email } = .response false (.value (.str m)))
    (hmatch : c.password = c.cpassword) (hscore : getStrength c.password ≥ 3)
    (hconfirm : confirm { email := c.email, otp := c.otp, newPassword := c.password } =
      .response false (.value (.str m))) :
    ((handleSubmit s verify).state.msg = .str m ∧ (handleSubmit s verify).state.type = "error" ∧
      (handleSubmit s verify).navigate = none ∧ (handleSubmit s verify).state.timer = s.timer) ∧
    ((handleResend s request).state.msg = .str m ∧
      (handleResend s request).state.type = "error" ∧
      (handleResend s request).navigate = none ∧
      (handleResend s request).state.timer = s.timer) ∧
    ((ResetPasswordConfirm.handleSubmit c confirm).state.msg = .str m ∧
      (ResetPasswordConfirm.handleSubmit c confirm).state.type = "error" ∧
      (ResetPasswordConfirm.handleSubmit c confirm).navigate = none) := by
  have ht : (JsVal.str m).truthy = true := by simpa [JsVal.truthy] using hm
  refine ⟨?_, ?_, ?_⟩
  · simp only [handleSubmit, submitStart, hverify, submitFinish, ht, if_true, and_self]
  · simp only [handleResend, resendStart, hrequest, resendFinish, ht, if_true, and_self]
  · have hw : ¬ getStrength c.password < 3 := by omega
    simp only [ResetPasswordConfirm.handleSubmit, ne_eq, hmatch, not_true_eq_false, if_false]
    rw [← hmatch, if_neg hw]
    simp only [hconfirm, ht, if_true, and_self]

/-- C10, at the sample pages and the message `Invalid OTP`. -/
theorem C10_business_errors_verbatim_witness :
    (handleSubmit sampleOtpState (fun _ => .response false (.value (.str "Invalid OTP")))
      ).state.msg = .str "Invalid OTP" ∧
    (ResetPasswordConfirm.handleSubmit sampleConfirmState
      (fun _ => .response false (.value (.str "Invalid OTP")))).navigate = none :=
  have h := C10_business_errors_verbatim "Invalid OTP" (by decide) sampleOtpState
    (fun _ => .response false (.value (.str "Invalid OTP")))
    (fun _ => .response false (.value (.str "Invalid OTP"))) sampleConfirmState
    (fun _ => .response false (.value (.str "Invalid OTP"))) rfl rfl rfl (by decide) rfl
  ⟨h.1.1, h.2.2.2.2⟩

end Handlers

/-! ### Transport errors -/

section Transport
open ResetPasswordOTP

/-- C11: transport errors leave the UI retryable.  For each of the three handlers, when
the fetch or the parsing of its response throws, the message is the fixed "Server error"
text of the handler with type `"error"`, no navigation is scheduled and the timer keeps
its value; and whatever the outcome of the request (success, non-success, thrown), the
busy flag of the handler (`loading`, respectively `resending`) is false when the handler
has finished. -/
theorem C11_transport_errors_retryable (s : State) (c : ResetPasswordConfirm.State)
    (hmatch : c.password = c.cpassword) (hscore : getStrength c.password ≥ 3) :
    ((handleSubmit s (fun _ => .threw)).state.msg = .str "⚠️ Server error. Try again later." ∧
      (handleSubmit s (fun _ => .threw)).state.type = "error" ∧
      (handleSubmit s (fun _ => .threw)).navigate = none ∧
      (handleSubmit s (fun _ => .threw)).state.timer = s.timer) ∧
    ((handleResend s (fun _ => .threw)).state.msg = .str "⚠️ Server error. Try again." ∧
      (handleResend s (fun _ => .threw)).state.type = "error" ∧
      (handleResend s (fun _ => .threw)).navigate = none ∧
      (handleResend s (fun _ => .threw)).state.timer = s.timer) ∧
    ((ResetPasswordConfirm.handleSubmit c (fun _ => .threw)).state.msg =
        .str "⚠️ Server error. Try again." ∧
      (ResetPasswordConfirm.handleSubmit c (fun _ => .threw)).state.type = "error" ∧
      (ResetPasswordConfirm.handleSubmit c (fun _ => .threw)).navigate = none) ∧
    (∀ verify, (handleSubmit s verify).state.loading = false) ∧
    (∀ request, (handleResend s request).state.resending = false) ∧
    (∀ confirm, (ResetPasswordConfirm.handleSubmit c confirm).state.loading = false) := by
  have hw : ¬ getStrength c.password < 3 := by omega
  refine ⟨⟨rfl, rfl, rfl, rfl⟩, ⟨rfl, rfl, rfl, rfl⟩, ?_, ?_, ?_, ?_⟩
  · simp only [ResetPasswordConfirm.handleSubmit, ne_eq, hmatch, not_true_eq_false, if_false]
    rw [← hmatch, if_neg hw]
    exact ⟨rfl, rfl, rfl⟩
  · intro verify
    simp only [handleSubmit, submitStart, submitFinish]
    split <;> rfl
  · intro request
    simp only [handleResend, resendStart, resendFinish]
    split <;> rfl
  · intro confirm
    simp only [ResetPasswordConfirm.handleSubmit, ne_eq, hmatch, not_true_eq_false, if_false]
    rw [← hmatch, if_neg hw]
    split <;> rfl

/-- C11, at the sample pages. -/
theorem C11_transport_errors_retryable_witness :
    (ResetPasswordConfirm.handleSubmit sampleConfirmState (fun _ => .threw)).state.msg =
      .str "⚠️ Server error. Try again." ∧
    (ResetPasswordConfirm.handleSubmit sampleConfirmState
      (fun _ => .response true .null)).state.loading = false :=
  have h := C11_transport_errors_retryable sampleOtpState sampleConfirmState rfl (by decide)
  ⟨h.2.2.1.1, h.2.2.2.2.2 _⟩

end Transport

/-! ### The media order of the seller form -/

section MediaOrder

open SellerAddProduct

theorem interleave_nil_left {α : Type} (ys : List α) : interleave [] ys = ys := by
  cases ys <;> rfl

theorem interleave_nil_right {α : Type} (xs : List α) : interleave xs [] = xs := by
  cases xs <;> rfl

theorem interleave_cons {α : Type} (n : Nat) :
    ∀ (x : α) (xs ys : List α), xs.length + ys.length = n →
      interleave (x :: xs) ys = x :: interleave ys xs := by
  induction n using Nat.strong_induction_on with
  | _ n ih =>
    intro x xs ys hn
    cases ys with
    | nil => rw [interleave_nil_right, interleave_nil_left]
    | cons y ys =>
      show x :: y :: interleave xs ys = x :: interleave (y :: ys) xs
      cases xs with
      | nil => rw [interleave_nil_right, interleave_nil_left]
      | cons x' xs =>
        rw [ih (xs.length + ys.length) (by simp at hn; omega) x' xs ys rfl,
          ih (ys.length + (x' :: xs).length) (by simp at hn ⊢; omega) y ys (x' :: xs) rfl,
          ih (xs.length + ys.length) (by simp at hn; omega) x' xs ys rfl]

/-- What the loop of `buildAutoMerged` appends from a given iteration on. -/
theorem autoLoop_eq (imgs vids : List String) (n : Nat) :
    ∀ (i v : Nat) (turn : MediaType) (merged : List Media),
      (imgs.length - i) + (vids.length - v) = n →
      autoLoop imgs vids i v turn merged =
        merged ++
          (if turn = .image then
            interleave ((imgs.drop i).map fun u => { type := .image, url := u })
              ((vids.drop v).map fun u => { type := .video, url := u })
          else
            interleave ((vids.drop v).map fun u => { type := .video, url := u })
              ((imgs.drop i).map fun u => { type := .image, url := u })) := by
  induction n using Nat.strong_induction_on with
  | _ n ih =>
    intro i v turn merged hn
    rw [autoLoop]
    by_cases hi : i < imgs.length
    · have hdi := List.drop_eq_getElem_cons hi
      by_cases hv : v < vids.length
      · have hdv := List.drop_eq_getElem_cons hv
        cases turn with
        | image =>
          simp only [hi, hv, or_self, if_true, and_self, dite_true, true_and]
          rw [ih _ (by omega) _ _ _ _ rfl]
          simp only [nextTurn, if_true, reduceCtorEq, if_false, List.append_assoc,
            List.singleton_append]
          rw [hdi, List.map_cons, interleave_cons _ _ _ _ rfl]
        | video =>
          simp only [hi, hv, or_self, if_true, reduceCtorEq, false_and, dite_false, and_self,
            dite_true, if_false]
          rw [ih _ (by omega) _ _ _ _ rfl]
          simp only [nextTurn, reduceCtorEq, if_false, if_true, List.append_assoc,
            List.singleton_append]
          rw [hdv, List.map_cons, interleave_cons _ _ _ _ rfl]
      · have hdv : vids.drop v = [] := List.drop_eq_nil_of_le (by omega)
        cases turn with
        | image =>
          simp only [hi, hv, or_false, if_true, and_self, dite_true]
          rw [ih _ (by omega) _ _ _ _ rfl]
          simp only [nextTurn, if_true, reduceCtorEq, if_false, List.append_assoc,
            List.singleton_append]
          rw [hdi, List.map_cons, interleave_cons _ _ _ _ rfl]
        | video =>
          simp only [hi, hv, or_false, if_true, reduceCtorEq, false_and, dite_false,
            and_false, dite_true, if_false]
          rw [ih _ (by omega) _ _ _ _ rfl]
          simp only [nextTurn, reduceCtorEq, if_false, if_true, List.append_assoc,
            List.singleton_append, hdv, List.map_nil]
          rw [hdi, List.map_cons, interleave_nil_right, interleave_nil_left]
    · have hdi : imgs.drop i = [] := List.drop_eq_nil_of_le (by omega)
      by_cases hv : v < vids.length
      · have hdv := List.drop_eq_getElem_cons hv
        cases turn with
        | image =>
          simp only [hi, hv, false_or, if_true, and_false, dite_false, reduceCtorEq,
            false_and, dite_true]
          rw [ih _ (by omega) _ _ _ _ rfl]
          simp only [nextTurn, if_true, reduceCtorEq, if_false, List.append_assoc,
            List.singleton_append, hdi, List.map_nil]
          rw [hdv, List.map_cons, interleave_nil_right, interleave_nil_left]
        | video =>
          simp only [hi, hv, false_or, if_true, reduceCtorEq, false_and, dite_false, and_self,
            dite_true, if_false]
          rw [ih _ (by omega) _ _ _ _ rfl]
          simp only [nextTurn, reduceCtorEq, if_false, if_true, List.append_assoc,
            List.singleton_append]
          rw [hdv, List.map_cons, interleave_cons _ _ _ _ rfl]
      · have hdv : vids.drop v = [] := List.drop_eq_nil_of_le (by omega)
        simp only [hi, hv, or_self, if_false, hdi, hdv, List.map_nil]
        cases turn <;> simp [interleave]

/-- Taking turns is the alternating merge of the specification. -/
theorem interleave_eq_alternatingMerge (imgs : List String) :
    ∀ vids : List String,
      interleave (imgs.map fun u => ({ type := .image, url := u } : Media))
        (vids.map fun u => ({ type := .video, url := u } : Media)) = alternatingMerge imgs vids := by
  induction imgs with
  | nil =>
    intro vids
    simp [alternatingMerge, interleave_nil_left]
  | cons i imgs ih =>
    intro vids
    cases vids with
    | nil => simp [alternatingMerge, interleave_nil_right]
    | cons v vids =>
      have := ih vids
      simp only [alternatingMerge, List.map_cons, interleave, List.length_cons, List.zip_cons_cons,
        List.flatMap_cons, Nat.add_min_add_right, List.drop_succ_cons, List.cons_append,
        List.nil_append, List.append_assoc] at this ⊢
      rw [this]

/-- The loop of `buildAutoMerged` leaves and returns the alternating merge. -/
theorem buildAutoMerged_eq (form : Form) :
    buildAutoMerged form = alternatingMerge form.images form.videos := by
  unfold buildAutoMerged
  simp only
  rw [autoLoop_eq _ _ _ 0 0 _ [] rfl, List.nil_append, List.drop_zero, List.drop_zero]
  by_cases h : form.images.length > 0
  · rw [if_pos h, if_pos rfl]
    exact interleave_eq_alternatingMerge _ _
  · have hnil : form.images = [] := List.length_eq_zero.1 (by omega)
    rw [if_neg h, if_neg (by decide), hnil, List.map_nil, interleave_nil_right]
    simp [alternatingMerge]

/-- C12: auto-arrange is the alternating reference merge: `buildAutoMerged` returns image
`imgs[0]`, video `vids[0]`, image `imgs[1]`, video `vids[1]`, ... up to the shorter length,
followed by the remaining items of the longer list in their order; images `[i1, i2]` and
videos `[v1]` give `[i1, v1, i2]`, and no images with videos `[v1, v2]` give `[v1, v2]`. -/
theorem C12_buildAutoMerged_alternates (form : Form) :
    buildAutoMerged form = alternatingMerge form.images form.videos ∧
    (form.images = ["i1", "i2"] → form.videos = ["v1"] →
      buildAutoMerged form =
        [{ type := .image, url := "i1" }, { type := .video, url := "v1" },
         { type := .image, url := "i2" }]) ∧
    (form.images = [] → form.videos = ["v1", "v2"] →
      buildAutoMerged form =
        [{ type := .video, url := "v1" }, { type := .video, url := "v2" }]) := by
  refine ⟨buildAutoMerged_eq form, fun h1 h2 => ?_, fun h1 h2 => ?_⟩
  · rw [buildAutoMerged_eq, h1, h2]; decide
  · rw [buildAutoMerged_eq, h1, h2]; decide

/-- C12, at the form with images `i1`, `i2` and video `v1`. -/
theorem C12_buildAutoMerged_alternates_witness :
    buildAutoMerged { SellerAddProduct.init.form with images := ["i1", "i2"], videos := ["v1"] } =
      [{ type := .image, url := "i1" }, { type := .video, url := "v1" },
       { type := .image, url := "i2" }] :=
  (C12_buildAutoMerged_alternates
    { SellerAddProduct.init.form with images := ["i1", "i2"], videos := ["v1"] }).2.1 rfl rfl

theorem alternatingMerge_length (imgs : List String) : ∀ vids : List String,
    (alternatingMerge imgs vids).length = imgs.length + vids.length := by
  intro vids
  rw [← interleave_eq_alternatingMerge]
  induction imgs generalizing vids with
  | nil => simp [interleave_nil_left]
  | cons i imgs ih =>
    cases vids with
    | nil => simp [interleave_nil_right]
    | cons v vids =>
      simp only [List.map_cons, interleave, List.length_cons, ih vids]
      omega

theorem alternatingMerge_urls (imgs : List String) : ∀ vids : List String,
    urlsOfType .image (alternatingMerge imgs vids) = imgs ∧
    urlsOfType .video (alternatingMerge imgs vids) = vids := by
  intro vids
  rw [← interleave_eq_alternatingMerge]
  induction imgs generalizing vids with
  | nil =>
    simp only [List.map_nil, interleave_nil_left, urlsOfType]
    induction vids with
    | nil => exact ⟨rfl, rfl⟩
    | cons v vids ih => simpa [List.filter] using ih
  | cons i imgs ih =>
    cases vids with
    | nil =>
      simp only [List.map_nil, interleave_nil_right, urlsOfType]
      clear ih
      induction imgs with
      | nil => exact ⟨rfl, rfl⟩
      | cons j imgs ih => simpa [List.filter] using ih
    | cons v vids =>
      have := ih vids
      simp only [urlsOfType] at this ⊢
      simpa [interleave, List.filter] using this

/-- C13: auto-arrange loses and duplicates nothing: the output of `buildAutoMerged` has
length `|imgs| + |vids|`, the urls of its entries tagged `image`, in output order, are
exactly `imgs`, and those of its entries tagged `video` are exactly `vids`. -/
theorem C13_buildAutoMerged_interleaving (form : Form) :
    (buildAutoMerged form).length = form.images.length + form.videos.length ∧
    urlsOfType .image (buildAutoMerged form) = form.images ∧
    urlsOfType .video (buildAutoMerged form) = form.videos := by
  rw [buildAutoMerged_eq]
  exact ⟨alternatingMerge_length _ _, alternatingMerge_urls _ _⟩

/-- C14: the claim that the manual branch of the sync effect keeps `mediaOrder` as it is
and appends the new items fails on the code: `preserved` is filtered from
`buildManualMerged()`, so it comes in the order of the form.  With the user's order
`[video b, image a]` and the image `c` newly added, the effect computes
`[image a, video b, image c]`, not `[video b, image a, image c]`. -/
theorem C14_manual_sync_resets_order :
    (syncEffect sampleManualState).mediaOrder =
      [{ type := .image, url := "a" }, { type := .video, url := "b" },
       { type := .image, url := "c" }] ∧
    (syncEffect sampleManualState).mediaOrder ≠
      sampleManualState.mediaOrder ++ [{ type := .image, url := "c" }] := by
  decide

/-- C19: the claim that `removeAt` takes exactly one element from the list of the item's
type fails on the code when a URL occurs twice: `filter(u => u !== item.url)` removes every
copy.  With images `[u, u]`, `removeAt(0)` leaves no image; in manual mode `mediaOrder`
still holds one entry, so it and the form no longer contain the same media. -/
theorem C19_removeAt_removes_every_copy :
    sampleDuplicateState.mediaOrder[0]? = some { type := .image, url := "u" } ∧
    sampleDuplicateState.form.images.length = 2 ∧
    (removeAt sampleDuplicateState 0).form.images = [] ∧
    (removeAt sampleDuplicateState 0).mediaOrder = [{ type := .image, url := "u" }] ∧
    (removeAt { sampleDuplicateState with autoArrange := true } 0).form.images = [] := by
  decide

/-- Membership in the set of previous URLs. -/
theorem contains_url_iff (prev : List String) (u : String) :
    prev.contains u = true ↔ u ∈ prev := by
  simp

/-- The manual branch of the sync effect permutes the media of the form. -/
theorem syncEffect_manual_perm (s : State) (h : s.autoArrange = false) :
    (syncEffect s).mediaOrder.Perm (mediaOfForm s.form) := by
  simp only [syncEffect, h, Bool.false_eq_true, if_false]
  exact List.filter_append_perm _ _

/-- An image entry occurs in the media of the form as often as its URL among the images. -/
theorem count_image_mediaOfForm (form : Form) (u : String) :
    (mediaOfForm form).count { type := .image, url := u } = form.images.count u := by
  have hinj : Function.Injective (fun u : String => ({ type := .image, url := u } : Media)) := by
    intro a b hab
    simpa using hab
  have h0 : (form.videos.map fun u => ({ type := .video, url := u } : Media)).count
      { type := .image, url := u } = 0 := by
    rw [List.count_eq_zero]
    simp
  rw [mediaOfForm, List.count_append, h0, Nat.add_zero]
  exact List.count_map_of_injective _ _ hinj u

/-- A video entry occurs in the media of the form as often as its URL among the videos. -/
theorem count_video_mediaOfForm (form : Form) (u : String) :
    (mediaOfForm form).count { type := .video, url := u } = form.videos.count u := by
  have hinj : Function.Injective (fun u : String => ({ type := .video, url := u } : Media)) := by
    intro a b hab
    simpa using hab
  have h0 : (form.images.map fun u => ({ type := .image, url := u } : Media)).count
      { type := .video, url := u } = 0 := by
    rw [List.count_eq_zero]
    simp
  rw [mediaOfForm, List.count_append, h0, Nat.zero_add]
  exact List.count_map_of_injective _ _ hinj u

/-- C17: manual-mode sync invariant: whatever the previous `mediaOrder`, the list the
manual branch of the sync effect computes (`preserved ++ added`) is a permutation of
`buildManualMerged()`, which lists the images and then the videos of the form: it has as
many entries as the form has media, it holds each image and each video of the form as
many times as the form does, and every entry of it is an image or a video of the form. -/
theorem C17_manual_sync_is_permutation (s : State) (h : s.autoArrange = false) :
    (syncEffect s).mediaOrder.Perm (buildManualMerged s.form) ∧
    buildManualMerged s.form = mediaOfForm s.form ∧
    (syncEffect s).mediaOrder.length = s.form.images.length + s.form.videos.length ∧
    (∀ u : String,
      (syncEffect s).mediaOrder.count { type := .image, url := u } = s.form.images.count u) ∧
    (∀ u : String,
      (syncEffect s).mediaOrder.count { type := .video, url := u } = s.form.videos.count u) ∧
    (∀ u ∈ s.form.images, { type := .image, url := u } ∈ (syncEffect s).mediaOrder) ∧
    (∀ u ∈ s.form.videos, { type := .video, url := u } ∈ (syncEffect s).mediaOrder) ∧
    (∀ m ∈ (syncEffect s).mediaOrder,
      (m.type = .image ∧ m.url ∈ s.form.images) ∨ (m.type = .video ∧ m.url ∈ s.form.videos)) := by
  have hp := syncEffect_manual_perm s h
  refine ⟨hp, rfl, ?_, ?_, ?_, ?_, ?_, ?_⟩
  · rw [hp.length_eq]
    simp [mediaOfForm]
  · intro u
    rw [hp.count_eq, count_image_mediaOfForm]
  · intro u
    rw [hp.count_eq, count_video_mediaOfForm]
  · intro u hu
    rw [hp.mem_iff]
    simp only [mediaOfForm, List.mem_append, List.mem_map]
    exact Or.inl ⟨u, hu, rfl⟩
  · intro u hu
    rw [hp.mem_iff]
    simp only [mediaOfForm, List.mem_append, List.mem_map]
    exact Or.inr ⟨u, hu, rfl⟩
  · intro m hm
    have hm' := hp.mem_iff.1 hm
    simp only [mediaOfForm, List.mem_append, List.mem_map] at hm'
    rcases hm' with ⟨u, hu, rfl⟩ | ⟨u, hu, rfl⟩
    · exact Or.inl ⟨rfl, hu⟩
    · exact Or.inr ⟨rfl, hu⟩

/-- C17, at the sample manual state: the image `c` of the form is in the new order once,
and the order has the three media of the form. -/
theorem C17_manual_sync_is_permutation_witness :
    sampleManualState.form.images.count "c" = 1 ∧
    (syncEffect sampleManualState).mediaOrder.count { type := .image, url := "c" } = 1 ∧
    (syncEffect sampleManualState).mediaOrder.length = 3 :=
  have h := C17_manual_sync_is_permutation sampleManualState rfl
  ⟨by decide, (h.2.2.2.1 "c").trans (by decide), h.2.2.1.trans (by decide)⟩

/-- Splitting a list in which one item has a new URL into the known and the new items puts
that item last. -/
theorem known_then_new (prev : List String) (A B : List Media) (x : Media)
    (hA : ∀ m ∈ A, m.url ∈ prev) (hB : ∀ m ∈ B, m.url ∈ prev) (hx : x.url ∉ prev) :
    (A ++ x :: B).filter (fun m => prev.contains m.url) ++
      (A ++ x :: B).filter (fun m => !prev.contains m.url) = A ++ B ++ [x] := by
  have h1 : A.filter (fun m => prev.contains m.url) = A :=
    List.filter_eq_self.2 (fun m hm => by simpa using hA m hm)
  have h2 : B.filter (fun m => prev.contains m.url) = B :=
    List.filter_eq_self.2 (fun m hm => by simpa using hB m hm)
  have h3 : A.filter (fun m => !prev.contains m.url) = [] :=
    List.filter_eq_nil_iff.2 (fun m hm => by simpa using hA m hm)
  have h4 : B.filter (fun m => !prev.contains m.url) = [] :=
    List.filter_eq_nil_iff.2 (fun m hm => by simpa using hB m hm)
  have h5 : prev.contains x.url = false := by simpa using hx
  rw [List.filter_append, List.filter_append, List.filter_cons, List.filter_cons, h1, h2, h3,
    h4, h5]
  simp

/-- The URLs of the media of the form. -/
theorem urls_mediaOfForm (form : Form) :
    (mediaOfForm form).map (fun m => m.url) = form.images ++ form.videos := by
  simp [mediaOfForm, Function.comp_def]

/-- With the order still the one of the form, the manual branch appends a new item. -/
theorem syncEffect_addUrl_form_order (s : State) (t : MediaType) (u : String)
    (h : s.autoArrange = false) (hu : u ≠ "") (hi : u ∉ s.form.images)
    (hv : u ∉ s.form.videos) (ho : s.mediaOrder = mediaOfForm s.form) :
    (syncEffect (addUrl s t u)).mediaOrder = s.mediaOrder ++ [{ type := t, url := u }] := by
  have hprev : s.mediaOrder.map (fun m => m.url) = s.form.images ++ s.form.videos := by
    rw [ho, urls_mediaOfForm]
  have hI : ∀ m ∈ s.form.images.map (fun u => ({ type := .image, url := u } : Media)),
      m.url ∈ s.mediaOrder.map (fun m => m.url) := by
    intro m hm
    simp only [List.mem_map] at hm
    obtain ⟨x, hx, rfl⟩ := hm
    rw [hprev]
    exact List.mem_append_left _ hx
  have hV : ∀ m ∈ s.form.videos.map (fun u => ({ type := .video, url := u } : Media)),
      m.url ∈ s.mediaOrder.map (fun m => m.url) := by
    intro m hm
    simp only [List.mem_map] at hm
    obtain ⟨x, hx, rfl⟩ := hm
    rw [hprev]
    exact List.mem_append_right _ hx
  have hx : u ∉ s.mediaOrder.map (fun m => m.url) := by
    rw [hprev, List.mem_append]
    exact fun h => h.elim hi hv
  cases t with
  | image =>
    have e : (syncEffect (addUrl s .image u)).mediaOrder =
        (s.form.images.map (fun u => ({ type := .image, url := u } : Media)) ++
            { type := .image, url := u } ::
              s.form.videos.map (fun u => ({ type := .video, url := u } : Media))).filter
          (fun m => (s.mediaOrder.map fun m => m.url).contains m.url) ++
        (s.form.images.map (fun u => ({ type := .image, url := u } : Media)) ++
            { type := .image, url := u } ::
              s.form.videos.map (fun u => ({ type := .video, url := u } : Media))).filter
          (fun m => !(s.mediaOrder.map fun m => m.url).contains m.url) := by
      simp only [addUrl, hu, if_false, if_true, syncEffect, h, Bool.false_eq_true,
        buildManualMerged, List.map_append, List.map_cons, List.map_nil, List.append_assoc,
        List.singleton_append]
    rw [e, known_then_new _ _ _ _ hI hV hx, ho]
    rfl
  | video =>
    have e : (syncEffect (addUrl s .video u)).mediaOrder =
        (s.form.images.map (fun u => ({ type := .image, url := u } : Media)) ++
          (s.form.videos.map (fun u => ({ type := .video, url := u } : Media)) ++
            [({ type := .video, url := u } : Media)])).filter
          (fun m => (s.mediaOrder.map fun m => m.url).contains m.url) ++
        (s.form.images.map (fun u => ({ type := .image, url := u } : Media)) ++
          (s.form.videos.map (fun u => ({ type := .video, url := u } : Media)) ++
            [({ type := .video, url := u } : Media)])).filter
          (fun m => !(s.mediaOrder.map fun m => m.url).contains m.url) := by
      simp only [addUrl, hu, if_false, reduceCtorEq, syncEffect, h, Bool.false_eq_true,
        buildManualMerged, List.map_append, List.map_cons, List.map_nil]
    rw [e, ← List.append_assoc,
      known_then_new _ _ [] _ (fun m hm => (List.mem_append.1 hm).elim (hI m) (hV m))
        (fun m hm => by cases hm) hx, ho, List.append_nil]
    rfl

/-- C14, amended: in manual mode the sync effect puts the media whose URL was already in
`mediaOrder` before the newly added ones, each group in the order of the form (images,
then videos).  So the new items come at the end, and when `mediaOrder` is still in the
order of the form a newly added item is appended to it unchanged; an order the user has
changed is replaced by the order of the form. -/
theorem C14_manual_sync_appends_in_form_order (s : State) (h : s.autoArrange = false) :
    (∃ preserved added : List Media,
      (syncEffect s).mediaOrder = preserved ++ added ∧
      preserved.Sublist (mediaOfForm s.form) ∧ added.Sublist (mediaOfForm s.form) ∧
      (∀ m ∈ mediaOfForm s.form,
        (m ∈ preserved ↔ m.url ∈ s.mediaOrder.map fun p => p.url) ∧
        (m ∈ added ↔ m.url ∉ s.mediaOrder.map fun p => p.url))) ∧
    (∀ (t : MediaType) (u : String), u ≠ "" → u ∉ s.form.images → u ∉ s.form.videos →
      s.mediaOrder = mediaOfForm s.form →
      (syncEffect (addUrl s t u)).mediaOrder = s.mediaOrder ++ [{ type := t, url := u }]) := by
  constructor
  · refine ⟨(mediaOfForm s.form).filter
        (fun m => (s.mediaOrder.map fun p => p.url).contains m.url),
      (mediaOfForm s.form).filter
        (fun m => !(s.mediaOrder.map fun p => p.url).contains m.url), ?_,
      List.filter_sublist _, List.filter_sublist _, ?_⟩
    · simp only [syncEffect, h, Bool.false_eq_true, if_false]
      rfl
    · intro m hm
      constructor
      · rw [List.mem_filter]
        simp [hm]
      · rw [List.mem_filter]
        simp [hm]
  · intro t u hu hi hv ho
    exact syncEffect_addUrl_form_order s t u h hu hi hv ho

/-- C14, amended, at the sample state whose order is the one of the form: the image `c`
is appended. -/
theorem C14_manual_sync_appends_in_form_order_witness :
    (syncEffect (addUrl sampleFormOrderState .image "c")).mediaOrder =
      [{ type := .image, url := "a" }, { type := .video, url := "b" },
       { type := .image, url := "c" }] :=
  (C14_manual_sync_appends_in_form_order sampleFormOrderState rfl).2 .image "c"
    (by decide) (by decide) (by decide) rfl

end MediaOrder

/-! ### The server's codes -/

/-- An unexpired, unconsumed record makes `VerifyOtp` succeed. -/
theorem verifyOtp_of_record (records : List OtpRecord) (now : Nat) (r : OtpRecord)
    (hr : r ∈ records) (hexp : now < r.expiresAt) (hcons : r.consumed = false) :
    VerifyOtp records now (some r.email) r.code = true := by
  simp only [VerifyOtp, List.any_eq_true]
  exact ⟨r, hr, by simp [hexp, hcons]⟩

/-- When every record for the pair is consumed, `VerifyOtp` fails. -/
theorem verifyOtp_of_invalidated (s : ServerState) (now : Nat) (email : USVString)
    (code : JSString) (h : invalidated s email code) :
    VerifyOtp s.records now (some email) code = false := by
  rw [Bool.eq_false_iff]
  intro hv
  simp only [VerifyOtp, List.any_eq_true, Bool.and_eq_true, decide_eq_true_eq,
    Bool.not_eq_true', Option.some.injEq] at hv
  obtain ⟨r, hr, ⟨⟨⟨he, hc⟩, _⟩, hcons⟩⟩ := hv
  have := h r hr he.symm hc.symm
  rw [this] at hcons
  cases hcons

/-- A successful `ConfirmReset` leaves every record of the pair consumed. -/
theorem invalidated_confirmReset (s : ServerState) (now : Nat) (email : USVString)
    (code pw : JSString) (h : (ConfirmReset s now email code pw).2 = true) :
    invalidated (ConfirmReset s now email code pw).1 email code := by
  unfold ConfirmReset at h ⊢
  by_cases hv : VerifyOtp s.records now (some email) code = true
  · simp only [hv, if_true]
    intro r' hr' he' hc'
    simp only [List.mem_map] at hr'
    obtain ⟨r0, _, rfl⟩ := hr'
    split_ifs with h0
    · rfl
    · split_ifs at he' hc'
      exact absurd ⟨he', hc'⟩ h0
  · simp [hv] at h

/-- A call that does not issue the code to the email keeps the pair invalidated. -/
theorem invalidated_serve (s : ServerState) (call : ServerCall) (email : USVString)
    (code : JSString) (h : invalidated s email code)
    (hcall : call.issues email code = false) : invalidated (serve s call) email code := by
  cases call with
  | request now email' code' =>
    simp only [ServerCall.issues, Bool.and_eq_false_imp, decide_eq_true_eq,
      decide_eq_false_iff_not] at hcall
    intro r' hr' he' hc'
    simp only [serve, RequestOtp, List.mem_cons, List.mem_map] at hr'
    rcases hr' with rfl | ⟨r0, hr0, rfl⟩
    · exact absurd hc' (hcall he')
    · split_ifs with h0
      · rfl
      · split_ifs at he' hc'
        exact h r0 hr0 he' hc'
  | verify now email' code' => exact h
  | confirm now email' code' pw =>
    simp only [serve]
    unfold ConfirmReset
    split_ifs with hv
    · intro r' hr' he' hc'
      simp only [List.mem_map] at hr'
      obtain ⟨r0, hr0, rfl⟩ := hr'
      split_ifs with h0
      · rfl
      · split_ifs at he' hc'
        exact h r0 hr0 he' hc'
    · exact h

/-- Calls none of which issues the code to the email keep the pair invalidated. -/
theorem invalidated_serveAll (calls : List ServerCall) :
    ∀ (s : ServerState) (email : USVString) (code : JSString),
      invalidated s email code → (∀ c ∈ calls, c.issues email code = false) →
      invalidated (serveAll s calls) email code := by
  induction calls with
  | nil => intro s email code h _; exact h
  | cons c cs ih =>
    intro s email code h hc
    exact ih (serve s c) email code
      (invalidated_serve s c email code h (hc c (List.mem_cons_self _ _)))
      (fun c' hc' => hc c' (List.mem_cons_of_mem _ hc'))

/-- C15, as the claim states it, fails on the server of the spec: after the confirm of
`123456` has succeeded, a new request for the same email may be given the same digits, and
the verify of `123456` that follows succeeds. -/
theorem C15_reissued_code_verifies_again :
    (ConfirmReset { records := sampleRecords, credentials := [] } 30 "a+b@é.com".toList
      (units "123456") (units "Abcdef12")).2 = true ∧
    VerifyOtp
      (serveAll
        (ConfirmReset { records := sampleRecords, credentials := [] } 30 "a+b@é.com".toList
          (units "123456") (units "Abcdef12")).1
        [.request 40 "a+b@é.com".toList (units "123456")]).records
      50 (some "a+b@é.com".toList) (units "123456") = true := by
  decide

/-- C15, amended: right after `RequestOtp` has issued a code, and until it expires,
`VerifyOtp` with that email and code succeeds; and once `ConfirmReset(email, code,
newPassword)` has succeeded, `VerifyOtp` with the same email and code fails at every later
time, after any calls of the server among which no request issues the same code to that
email again. -/
theorem C15_single_confirm_until_reissue (s : ServerState) (issuedAt : Nat)
    (email : USVString) (code : JSString) :
    (∀ now, now < issuedAt + 120 →
      VerifyOtp (RequestOtp s issuedAt email code).records now (some email) code = true) ∧
    (∀ (now : Nat) (newPassword : JSString) (calls : List ServerCall) (later : Nat),
      (ConfirmReset s now email code newPassword).2 = true →
      (∀ c ∈ calls, c.issues email code = false) →
      VerifyOtp (serveAll (ConfirmReset s now email code newPassword).1 calls).records later
        (some email) code = false) := by
  constructor
  · intro now hnow
    exact verifyOtp_of_record _ now
      { email := email, code := code, issuedAt := issuedAt, expiresAt := issuedAt + 120,
        consumed := false } (List.mem_cons_self _ _) hnow rfl
  · intro now pw calls later hok hcalls
    exact verifyOtp_of_invalidated _ later email code
      (invalidated_serveAll calls _ email code (invalidated_confirmReset s now email code pw hok)
        hcalls)

/-- C15, amended, at the sample store: after the confirm of `123456`, a verify, a request
that issues `654321` and a confirm with the old code, `123456` does not verify. -/
theorem C15_single_confirm_until_reissue_witness :
    VerifyOtp
      (serveAll
        (ConfirmReset { records := sampleRecords, credentials := [] } 30 "a+b@é.com".toList
          (units "123456") (units "Abcdef12")).1
        [.verify 35 "a+b@é.com".toList (units "123456"),
         .request 40 "a+b@é.com".toList (units "654321"),
         .confirm 45 "a+b@é.com".toList (units "123456") (units "Abcdef13")]).records
      50 (some "a+b@é.com".toList) (units "123456") = false :=
  (C15_single_confirm_until_reissue { records := sampleRecords, credentials := [] } 0
    "a+b@é.com".toList (units "123456")).2 30 (units "Abcdef12")
    [.verify 35 "a+b@é.com".toList (units "123456"),
     .request 40 "a+b@é.com".toList (units "654321"),
     .confirm 45 "a+b@é.com".toList (units "123456") (units "Abcdef13")] 50
    (by decide) (by decide)

/-! ### Reordering, removing and submitting on the seller form -/

section Reordering

open SellerAddProduct

theorem spliceRemove_map {α β : Type} (f : α → β) (l : List α) (a : Nat) :
    spliceRemove (l.map f) a = (spliceRemove l a).map f := by
  simp [spliceRemove, List.map_take, List.map_drop]

theorem spliceInsert_map {α β : Type} (f : α → β) (l : List α) (b : Nat) (x : α) :
    spliceInsert (l.map f) b (f x) = (spliceInsert l b x).map f := by
  simp [spliceInsert, List.map_take, List.map_drop]

theorem spliceRemove_length {α : Type} (l : List α) (a : Nat) (ha : a < l.length) :
    (spliceRemove l a).length + 1 = l.length := by
  simp only [spliceRemove, List.length_append, List.length_take, List.length_drop]
  omega

theorem spliceInsert_length {α : Type} (l : List α) (b : Nat) (x : α) :
    (spliceInsert l b x).length = l.length + 1 := by
  simp only [spliceInsert, List.length_append, List.length_take, List.length_cons,
    List.length_drop]
  omega

theorem spliceRemove_getElem? {α : Type} (l : List α) (a j : Nat) :
    (spliceRemove l a)[j]? = if j < a then l[j]? else l[j + 1]? := by
  simp only [spliceRemove, List.getElem?_append, List.length_take, List.getElem?_take,
    List.getElem?_drop]
  by_cases h1 : j < a
  · by_cases h2 : j < l.length
    · simp [h1, h2]
    · have : l[j]? = none := List.getElem?_eq_none (by omega)
      simp [h1, h2, this]
      omega
  · by_cases h2 : a ≤ l.length
    · have e : a + 1 + (j - min a l.length) = j + 1 := by omega
      have : ¬ j < min a l.length := by omega
      simp [h1, this, e]
    · have : l[j + 1]? = none := List.getElem?_eq_none (by omega)
      simp [h1, this]
      omega

theorem spliceInsert_getElem? {α : Type} (l : List α) (b j : Nat) (x : α)
    (hb : b ≤ l.length) :
    (spliceInsert l b x)[j]? =
      if j < b then l[j]? else if j = b then some x else l[j - 1]? := by
  simp only [spliceInsert, List.getElem?_append, List.length_take, List.getElem?_take]
  have hm : min b l.length = b := by omega
  rw [hm]
  by_cases h1 : j < b
  · simp [h1]
  · by_cases h2 : j = b
    · subst h2; simp
    · have : j - b = (j - b - 1) + 1 := by omega
      simp only [h1, h2, if_false]
      rw [this, List.getElem?_cons_succ, List.getElem?_drop]
      congr 1
      omega

theorem spliceRemove_perm {α : Type} (l : List α) (a : Nat) (ha : a < l.length) :
    (l[a] :: spliceRemove l a).Perm l := by
  have h : l = l.take a ++ l[a] :: l.drop (a + 1) := by
    rw [← List.drop_eq_getElem_cons ha, List.take_append_drop]
  conv_rhs => rw [h]
  exact (List.perm_middle).symm

theorem spliceInsert_perm {α : Type} (l : List α) (b : Nat) (x : α) :
    (spliceInsert l b x).Perm (x :: l) := by
  have h : l = l.take b ++ l.drop b := (List.take_append_drop b l).symm
  conv_rhs => rw [h]
  exact List.perm_middle

/-- With both refs holding positions of the list, `handleDragEnd` takes the dragged item
out and puts it in again at the drag-over position. -/
theorem handleDragEnd_eq (mediaOrder : List Media) (a b : Nat) (ha : a < mediaOrder.length) :
    handleDragEnd mediaOrder (some a) (some b) =
      (spliceInsert (spliceRemove mediaOrder a) b mediaOrder[a]).map some := by
  simp only [handleDragEnd, Option.some_bind, Option.getD_some, List.getElem?_eq_getElem ha,
    spliceRemove_map, spliceInsert_map]

theorem exchange_getElem? {α : Type} (l : List α) (a b j : Nat) (ha : a < l.length)
    (hb : b < l.length) :
    (exchange l a b)[j]? = if j = b then l[a]? else if j = a then l[b]? else l[j]? := by
  simp only [exchange, List.getElem?_eq_getElem ha, List.getElem?_eq_getElem hb]
  simp only [List.getElem?_set, List.length_set]
  by_cases h1 : j = b
  · subst h1; simp [hb]
  · by_cases h2 : j = a
    · subst h2
      have : ¬ b = j := fun h => h1 h.symm
      simp [h1, this, ha]
    · have h3 : ¬ b = j := fun h => h1 h.symm
      have h4 : ¬ a = j := fun h => h2 h.symm
      simp [h1, h2, h3, h4]

/-- The item at each position after taking the item at `a` out and putting it in at `b`. -/
theorem moved_getElem? {α : Type} (l : List α) (a b j : Nat) (ha : a < l.length)
    (hb : b < l.length) :
    (spliceInsert (spliceRemove l a) b l[a])[j]? =
      if j = b then l[a]?
      else if (j < a ∧ j < b) ∨ (a < j ∧ b < j) then l[j]?
      else if j < b then l[j + 1]? else l[j - 1]? := by
  have hlen := spliceRemove_length l a ha
  rw [spliceInsert_getElem? _ _ _ _ (by omega)]
  simp only [spliceRemove_getElem?, List.getElem?_eq_getElem ha]
  by_cases h1 : j = b
  · subst h1; simp
  · by_cases h2 : j < b
    · by_cases h3 : j < a
      · simp [h1, h2, h3]
      · have : ¬ (a < j ∧ b < j) := by omega
        simp [h1, h2, h3, this]
    · by_cases h3 : j - 1 < a
      · have : ¬ ((j < a ∧ j < b) ∨ (a < j ∧ b < j)) := by omega
        simp only [if_neg h1, if_neg h2, if_pos h3, if_neg this]
      · have e : j - 1 + 1 = j := by omega
        have : (j < a ∧ j < b) ∨ (a < j ∧ b < j) := by omega
        simp only [if_neg h1, if_neg h2, if_neg h3, if_pos this, e]

theorem moved_perm {α : Type} (l : List α) (a b : Nat) (ha : a < l.length) :
    (spliceInsert (spliceRemove l a) b l[a]).Perm l :=
  (spliceInsert_perm _ _ _).trans (spliceRemove_perm l a ha)

theorem moved_length {α : Type} (l : List α) (a b : Nat) (ha : a < l.length) :
    (spliceInsert (spliceRemove l a) b l[a]).length = l.length :=
  (moved_perm l a b ha).length_eq

/-- Between equal or neighbouring positions, moving an item is exchanging two items. -/
theorem moved_eq_exchange {α : Type} (l : List α) (a b : Nat) (ha : a < l.length)
    (hb : b < l.length) (hadj : a = b ∨ a + 1 = b ∨ b + 1 = a) :
    spliceInsert (spliceRemove l a) b l[a] = exchange l a b := by
  apply List.ext_getElem?
  intro j
  rw [moved_getElem? l a b j ha hb, exchange_getElem? l a b j ha hb]
  by_cases h1 : j = b
  · simp [h1]
  · by_cases h2 : j = a
    · subst h2
      have h3 : ¬ ((j < j ∧ j < b) ∨ (j < j ∧ b < j)) := by omega
      simp only [h1, h3, if_false, if_true]
      split_ifs with h4
      · have : j + 1 = b := by omega
        rw [this]
      · have : j - 1 = b := by omega
        rw [this]
    · have h3 : (j < a ∧ j < b) ∨ (a < j ∧ b < j) := by omega
      simp [h1, h2, h3]

/-- C16, as the claim states it, fails: dragging the first of three items onto the third
moves it behind the other two, it does not exchange the first and the third. -/
theorem C16_drag_is_not_a_swap :
    handleDragEnd
        [{ type := .image, url := "x" }, { type := .image, url := "y" },
         { type := .image, url := "z" }] (some 0) (some 2) =
      [some { type := .image, url := "y" }, some { type := .image, url := "z" },
       some { type := .image, url := "x" }] ∧
    handleDragEnd
        [{ type := .image, url := "x" }, { type := .image, url := "y" },
         { type := .image, url := "z" }] (some 0) (some 2) ≠
      (exchange
        [{ type := .image, url := "x" }, { type := .image, url := "y" },
         { type := .image, url := "z" }] 0 2).map some := by
  decide

/-- C16, amended: for valid positions `a` (drag start) and `b` (drag over),
`handleDragEnd` moves the dragged item to position `b`: the item that was at `a` is at `b`,
the items between the two positions each move one position towards `a`, and every other
position keeps its item; when `a` and `b` are equal or neighbours this is the exchange of
the items at `a` and `b`. -/
theorem C16_drag_moves_the_item (mediaOrder : List Media) (a b : Nat)
    (ha : a < mediaOrder.length) (hb : b < mediaOrder.length) :
    ∃ r : List Media, handleDragEnd mediaOrder (some a) (some b) = r.map some ∧
      r.length = mediaOrder.length ∧ r[b]? = mediaOrder[a]? ∧
      (∀ j, (j < a ∧ j < b) ∨ (a < j ∧ b < j) → r[j]? = mediaOrder[j]?) ∧
      (∀ j, a ≤ j → j < b → r[j]? = mediaOrder[j + 1]?) ∧
      (∀ j, b < j → j ≤ a → r[j]? = mediaOrder[j - 1]?) ∧
      (a = b ∨ a + 1 = b ∨ b + 1 = a → r = exchange mediaOrder a b) := by
  refine ⟨_, handleDragEnd_eq mediaOrder a b ha, moved_length _ a b ha, ?_, ?_, ?_, ?_,
    moved_eq_exchange _ a b ha hb⟩
  · rw [moved_getElem? _ a b b ha hb, if_pos rfl]
  · intro j hj
    have : j ≠ b := by omega
    rw [moved_getElem? _ a b j ha hb, if_neg this, if_pos hj]
  · intro j h1 h2
    have h3 : j ≠ b := by omega
    have h4 : ¬ ((j < a ∧ j < b) ∨ (a < j ∧ b < j)) := by omega
    rw [moved_getElem? _ a b j ha hb, if_neg h3, if_neg h4, if_pos h2]
  · intro j h1 h2
    have h3 : j ≠ b := by omega
    have h4 : ¬ ((j < a ∧ j < b) ∨ (a < j ∧ b < j)) := by omega
    have h5 : ¬ j < b := by omega
    rw [moved_getElem? _ a b j ha hb, if_neg h3, if_neg h4, if_neg h5]

/-- C16, amended, at the sample manual order: the first item dragged onto the second. -/
theorem C16_drag_moves_the_item_witness :
    ∃ r : List Media,
      handleDragEnd sampleManualState.mediaOrder (some 0) (some 1) = r.map some ∧
      r[1]? = sampleManualState.mediaOrder[0]? :=
  have ⟨r, h1, _, h3, _⟩ :=
    C16_drag_moves_the_item sampleManualState.mediaOrder 0 1 (by decide) (by decide)
  ⟨r, h1, h3⟩

/-- Exchanging equal or neighbouring positions permutes the list. -/
theorem exchange_perm {α : Type} (l : List α) (a b : Nat) (ha : a < l.length)
    (hb : b < l.length) (hadj : a = b ∨ a + 1 = b ∨ b + 1 = a) : (exchange l a b).Perm l := by
  rw [← moved_eq_exchange l a b ha hb hadj]
  exact moved_perm l a b ha

/-- With `idx` and its neighbour both positions of the list, `moveItem` exchanges the two
items. -/
theorem moveItem_eq (mediaOrder : List Media) (idx : Nat) (dir : Direction) (t : Nat)
    (hidx : idx < mediaOrder.length) (ht : t < mediaOrder.length)
    (htarget : (if dir = .left then (idx : Int) - 1 else (idx : Int) + 1) = (t : Int)) :
    moveItem mediaOrder idx dir = (exchange mediaOrder idx t).map some := by
  have h1 : ¬ ((t : Int) < 0 ∨ (t : Int) ≥ ((mediaOrder.map some).length : Int)) := by
    simp only [List.length_map]; omega
  simp only [moveItem, htarget, h1, if_false, Int.toNat_ofNat]
  simp only [List.getElem?_map, List.getElem?_eq_getElem ht, List.getElem?_eq_getElem hidx,
    Option.map_some', Option.getD_some, arraySet, List.length_map, hidx, if_true,
    List.length_set, ht, exchange, List.map_set]

/-- On the early `return` of `moveItem` the list keeps its value. -/
theorem moveItem_out_of_range (mediaOrder : List Media) (idx : Nat) (dir : Direction)
    (h : (dir = .left ∧ idx = 0) ∨ (dir = .right ∧ idx + 1 ≥ mediaOrder.length)) :
    moveItem mediaOrder idx dir = mediaOrder.map some := by
  have h1 : (if dir = .left then (idx : Int) - 1 else (idx : Int) + 1) < 0 ∨
      (if dir = .left then (idx : Int) - 1 else (idx : Int) + 1) ≥
        ((mediaOrder.map some).length : Int) := by
    rcases h with ⟨hd, h0⟩ | ⟨hd, h0⟩
    · left; rw [if_pos hd, h0]; decide
    · right; rw [if_neg (by rw [hd]; decide)]; simp only [List.length_map]; omega
  simp only [moveItem, h1, if_true]

/-- C18: manual reordering never loses or duplicates media.  For positions inside the
list, `moveItem` and `handleDragEnd` each yield a permutation of `mediaOrder` of the same
length; `moveItem` exchanges exactly the items at `idx` and `idx - 1` (left) or `idx + 1`
(right) and leaves the list as it is when that neighbour is out of range; `handleDragEnd`
places the dragged item at the drag-over position. -/
theorem C18_reordering_is_a_permutation (mediaOrder : List Media) (idx a b : Nat)
    (dir : Direction) (hidx : idx < mediaOrder.length) (ha : a < mediaOrder.length)
    (hb : b < mediaOrder.length) :
    (∃ r : List Media, moveItem mediaOrder idx dir = r.map some ∧ r.Perm mediaOrder ∧
      r.length = mediaOrder.length ∧
      (dir = .left → 1 ≤ idx →
        r[idx]? = mediaOrder[idx - 1]? ∧ r[idx - 1]? = mediaOrder[idx]? ∧
        ∀ j, j ≠ idx → j ≠ idx - 1 → r[j]? = mediaOrder[j]?) ∧
      (dir = .right → idx + 1 < mediaOrder.length →
        r[idx]? = mediaOrder[idx + 1]? ∧ r[idx + 1]? = mediaOrder[idx]? ∧
        ∀ j, j ≠ idx → j ≠ idx + 1 → r[j]? = mediaOrder[j]?) ∧
      (dir = .left → idx = 0 → r = mediaOrder) ∧
      (dir = .right → idx + 1 = mediaOrder.length → r = mediaOrder)) ∧
    (∃ r : List Media, handleDragEnd mediaOrder (some a) (some b) = r.map some ∧
      r.Perm mediaOrder ∧ r.length = mediaOrder.length ∧ r[b]? = mediaOrder[a]?) := by
  constructor
  · cases dir with
    | left =>
      by_cases h0 : idx = 0
      · refine ⟨mediaOrder, moveItem_out_of_range _ _ _ (Or.inl ⟨rfl, h0⟩), List.Perm.refl _,
          rfl, ?_, ?_, ?_, ?_⟩
        · intro _ h1; omega
        · intro h; cases h
        · intro _ _; rfl
        · intro h; cases h
      · have ht : idx - 1 < mediaOrder.length := by omega
        have hne : idx - 1 ≠ idx := by omega
        have hp := exchange_perm mediaOrder idx (idx - 1) hidx ht (by omega)
        refine ⟨exchange mediaOrder idx (idx - 1),
          moveItem_eq _ idx .left (idx - 1) hidx ht (by simp only [if_true]; omega),
          hp, hp.length_eq, ?_, ?_, ?_, ?_⟩
        · intro _ _
          refine ⟨?_, ?_, fun j h1 h2 => ?_⟩
          · rw [exchange_getElem? _ _ _ _ hidx ht, if_neg hne.symm, if_pos rfl]
          · rw [exchange_getElem? _ _ _ _ hidx ht, if_pos rfl]
          · rw [exchange_getElem? _ _ _ _ hidx ht, if_neg h2, if_neg h1]
        · intro h; cases h
        · intro _ h; exact absurd h h0
        · intro h; cases h
    | right =>
      by_cases h0 : idx + 1 < mediaOrder.length
      · have hne : idx + 1 ≠ idx := by omega
        have hp := exchange_perm mediaOrder idx (idx + 1) hidx h0 (by omega)
        refine ⟨exchange mediaOrder idx (idx + 1),
          moveItem_eq _ idx .right (idx + 1) hidx h0 (by simp),
          hp, hp.length_eq, ?_, ?_, ?_, ?_⟩
        · intro h; cases h
        · intro _ _
          refine ⟨?_, ?_, fun j h1 h2 => ?_⟩
          · rw [exchange_getElem? _ _ _ _ hidx h0, if_neg hne.symm, if_pos rfl]
          · rw [exchange_getElem? _ _ _ _ hidx h0, if_pos rfl]
          · rw [exchange_getElem? _ _ _ _ hidx h0, if_neg h2, if_neg h1]
        · intro h; cases h
        · intro _ h; omega
      · refine ⟨mediaOrder, moveItem_out_of_range _ _ _ (Or.inr ⟨rfl, by omega⟩),
          List.Perm.refl _, rfl, ?_, ?_, ?_, ?_⟩
        · intro h; cases h
        · intro _ h1; exact absurd h1 h0
        · intro h; cases h
        · intro _ _; rfl
  · refine ⟨_, handleDragEnd_eq mediaOrder a b ha, moved_perm _ a b ha, moved_length _ a b ha,
      ?_⟩
    rw [moved_getElem? _ a b b ha hb, if_pos rfl]

/-- C18, at the sample manual order: the second item moved left. -/
theorem C18_reordering_is_a_permutation_witness :
    ∃ r : List Media,
      moveItem sampleManualState.mediaOrder 1 .left = r.map some ∧
      r.Perm sampleManualState.mediaOrder :=
  have ⟨⟨r, h1, h2, _⟩, _⟩ :=
    C18_reordering_is_a_permutation sampleManualState.mediaOrder 1 0 1 .left
      (by decide) (by decide) (by decide)
  ⟨r, h1, h2⟩

/-- The `catch` block posts nothing more and `finally` resets `saving`. -/
theorem submitCatch_sent (s : State) (sent : List Payload) (err : AxiosError) :
    (submitCatch s sent err).sent = sent ∧ (submitCatch s sent err).state.saving = false :=
  ⟨rfl, rfl⟩

/-- A number that is neither `NaN` nor `<= 0` is `> 0`. -/
theorem gtZero_of_not_leZero (x : JSNum) (hnan : x ≠ .nan) (h : x.leZero = false) :
    x.gtZero = true := by
  cases x with
  | nan => exact absurd rfl hnan
  | negInf => simp [JSNum.leZero] at h
  | posInf => rfl
  | finite q =>
    simp only [JSNum.leZero, decide_eq_false_iff_not, not_le] at h
    simp only [JSNum.gtZero, gt_iff_lt, decide_eq_true_eq]
    exact h

/-- When a check fails, `handleSubmit` posts nothing and resets `saving`. -/
theorem handleSubmit_rejected (seller : Option Seller) (Number : String → JSNum) (s : State)
    (post : Payload → PostResult) (h : ¬ submitChecks seller Number s.form) :
    (handleSubmit seller Number s post).sent = [] ∧
    (handleSubmit seller Number s post).state.saving = false := by
  unfold handleSubmit
  cases seller with
  | none => exact ⟨rfl, rfl⟩
  | some sel =>
    simp only
    split_ifs with h1 h2 h3 h4 h5
    · exact ⟨rfl, rfl⟩
    · exact ⟨rfl, rfl⟩
    · exact ⟨rfl, rfl⟩
    · exact ⟨rfl, rfl⟩
    · exact ⟨rfl, rfl⟩
    · exfalso
      apply h
      simp only [Bool.not_eq_true', Bool.not_eq_false] at h1
      simp only [not_or, Bool.not_eq_true] at h4 h5
      exact ⟨⟨sel, rfl, by simpa using h1⟩, h2, h3, h4, h5⟩

/-- When all checks pass, `handleSubmit` posts one payload, with the converted stock and
price. -/
theorem handleSubmit_accepted (seller : Option Seller) (Number : String → JSNum) (s : State)
    (post : Payload → PostResult) (h : submitChecks seller Number s.form) :
    ∃ p, (handleSubmit seller Number s post).sent = [p] ∧ p.stock = Number s.form.stock ∧
      p.price = Number s.form.price ∧ p.name = trim s.form.name ∧
      (handleSubmit seller Number s post).state.saving = false := by
  obtain ⟨⟨sel, rfl, hid⟩, h2, h3, h4, h5⟩ := h
  unfold handleSubmit
  simp only [hid, Bool.not_true, Bool.false_eq_true, if_false, h2, h3, h4.1, h4.2, h5.1, h5.2,
    or_self]
  split
  · exact ⟨_, rfl, rfl, rfl, rfl, rfl⟩
  · exact ⟨_, rfl, rfl, rfl, rfl, rfl⟩

/-- C20, as the claim states it, fails: with a stock that is not numeric, `Number` gives
`NaN`, `NaN <= 0` is false, the check does not throw and the payload is posted with a
stock that is not greater than 0. -/
theorem C20_non_numeric_stock_is_posted :
    sampleNumber sampleNonNumericState.form.stock = .nan ∧
    ∃ p, (handleSubmit (some sampleSeller) sampleNumber sampleNonNumericState
        (fun _ => .ok)).sent = [p] ∧ p.stock = .nan ∧ p.stock.gtZero = false := by
  have hchecks : submitChecks (some sampleSeller) sampleNumber sampleNonNumericState.form :=
    ⟨⟨sampleSeller, rfl, rfl⟩, by decide, by decide, ⟨by decide, by decide⟩,
      ⟨by decide, by decide⟩⟩
  obtain ⟨p, hp, hs, _⟩ := handleSubmit_accepted (some sampleSeller) sampleNumber
    sampleNonNumericState (fun _ => .ok) hchecks
  have hn : sampleNumber sampleNonNumericState.form.stock = .nan := by decide
  refine ⟨hn, p, hp, hs.trans hn, ?_⟩
  rw [hs, hn]
  rfl

/-- C20, amended: product submission is checked before any network call.  `handleSubmit`
posts only if the seller has an `_id`, the trimmed name is not empty, a category is
selected, and the stock and price fields are not empty and do not convert to a number
`<= 0`; so every payload sent carries the converted stock and price, neither of them
`<= 0`, and each greater than 0 unless it is `NaN`; whenever one of the checks fails
nothing is sent; and `saving` is false once the handler has finished. -/
theorem C20_submit_checks_before_post (seller : Option Seller) (Number : String → JSNum)
    (s : State) (post : Payload → PostResult) :
    ((handleSubmit seller Number s post).sent ≠ [] →
      (∃ sel, seller = some sel ∧ sel._id.truthy = true) ∧ trim s.form.name ≠ [] ∧
      s.form.category ≠ "" ∧ s.form.stock ≠ "" ∧ (Number s.form.stock).leZero = false ∧
      s.form.price ≠ "" ∧ (Number s.form.price).leZero = false) ∧
    (∀ p ∈ (handleSubmit seller Number s post).sent,
      p.stock = Number s.form.stock ∧ p.price = Number s.form.price ∧
      p.stock.leZero = false ∧ p.price.leZero = false ∧
      (p.stock ≠ .nan → p.stock.gtZero = true) ∧ (p.price ≠ .nan → p.price.gtZero = true)) ∧
    (seller = none ∨ (∃ sel, seller = some sel ∧ sel._id.truthy = false) ∨
        trim s.form.name = [] ∨ s.form.category = "" ∨ s.form.stock = "" ∨
        (Number s.form.stock).leZero = true ∨ s.form.price = "" ∨
        (Number s.form.price).leZero = true →
      (handleSubmit seller Number s post).sent = []) ∧
    (handleSubmit seller Number s post).state.saving = false := by
  by_cases h : submitChecks seller Number s.form
  · obtain ⟨p, hp, hs, hpr, _, hsav⟩ := handleSubmit_accepted seller Number s post h
    obtain ⟨⟨sel, hsel, hid⟩, h2, h3, ⟨h4, h5⟩, ⟨h6, h7⟩⟩ := h
    refine ⟨fun _ => ⟨⟨sel, hsel, hid⟩, h2, h3, h4, h5, h6, h7⟩, ?_, ?_, hsav⟩
    · intro q hq
      rw [hp, List.mem_singleton] at hq
      subst hq
      rw [hs, hpr]
      exact ⟨rfl, rfl, h5, h7, fun hn => gtZero_of_not_leZero _ hn h5,
        fun hn => gtZero_of_not_leZero _ hn h7⟩
    · intro hfail
      exfalso
      rcases hfail with hf | ⟨sel', hs', hid'⟩ | hf | hf | hf | hf | hf | hf
      · rw [hsel] at hf; cases hf
      · rw [hsel] at hs'
        cases hs'
        rw [hid] at hid'
        cases hid'
      · exact h2 hf
      · exact h3 hf
      · exact h4 hf
      · rw [h5] at hf; cases hf
      · exact h6 hf
      · rw [h7] at hf; cases hf
  · have hr := handleSubmit_rejected seller Number s post h
    refine ⟨fun hne => absurd hr.1 hne, ?_, fun _ => hr.1, hr.2⟩
    intro q hq
    rw [hr.1] at hq
    cases hq

/-- C20, amended, at the sample form: with a seller one payload is sent, with stock and
price greater than 0; without a seller nothing is sent. -/
theorem C20_submit_checks_before_post_witness :
    (handleSubmit (some sampleSeller) sampleNumber sampleProductState
        (fun _ => .ok)).sent.length = 1 ∧
    (∀ p ∈ (handleSubmit (some sampleSeller) sampleNumber sampleProductState
        (fun _ => .ok)).sent, p.stock = .finite 3 ∧ p.price = .finite 250) ∧
    (handleSubmit none sampleNumber sampleProductState (fun _ => .ok)).sent = [] :=
  have hchecks : submitChecks (some sampleSeller) sampleNumber sampleProductState.form :=
    ⟨⟨sampleSeller, rfl, rfl⟩, by decide, by decide, ⟨by decide, by decide⟩,
      ⟨by decide, by decide⟩⟩
  have ⟨_, hp, _⟩ := handleSubmit_accepted (some sampleSeller) sampleNumber
    sampleProductState (fun _ => .ok) hchecks
  have h := C20_submit_checks_before_post (some sampleSeller) sampleNumber sampleProductState
    (fun _ => .ok)
  ⟨by rw [hp]; rfl,
   fun p hp' => ⟨(h.2.1 p hp').1.trans (by decide), (h.2.1 p hp').2.1.trans (by decide)⟩,
   (C20_submit_checks_before_post none sampleNumber sampleProductState
      (fun _ => .ok)).2.2.1 (Or.inl rfl)⟩

end Reordering

/-! ### The initials of the profile pages -/

/-- The two copies of `getInitials` return the same on every input. -/
theorem getInitials_copies_agree (toUpperCase : JSString → JSString) (name : Option JSString) :
    EditProfile.getInitials toUpperCase name = ProfilePage.getInitials toUpperCase name := rfl

/-- C21: the claim that `getInitials` returns without throwing for every name fails on the
code.  For the empty name, which is the `fullName` of the initial state of `EditProfile`,
and for a name of white space only, `"".split(" ")` is `[""]`, so the guard on
`parts.length` does not apply and `parts[0][0].toUpperCase()` throws; the avatar of the
initial state throws with it.  For two words with two spaces between them the second part
is empty, and the result is the first letter followed by `UNDEFINED`.  A missing name does
give `"U"`, and both copies behave alike. -/
theorem C21_getInitials_throws_on_empty_name (toUpperCase : JSString → JSString) :
    EditProfile.getInitials toUpperCase (some []) = .error "TypeError" ∧
    ProfilePage.getInitials toUpperCase (some []) = .error "TypeError" ∧
    EditProfile.getInitials toUpperCase (some (units "   ")) = .error "TypeError" ∧
    EditProfile.avatar toUpperCase EditProfile.initialUser = .error "TypeError" ∧
    EditProfile.getInitials sampleUpperCase (some (units "a  b")) =
      .ok (units "AUNDEFINED") ∧
    EditProfile.getInitials toUpperCase none = .ok (units "U") := by
  refine ⟨rfl, rfl, ?_, rfl, ?_, rfl⟩
  · have h : split (trim (units "   ")) 32 = [[]] := by decide
    simp only [EditProfile.getInitials, h, List.head?_nil]
  · have h : split (trim (units "a  b")) 32 = [[97], [], [98]] := by decide
    simp only [EditProfile.getInitials, h, List.head?_cons, List.head?_nil]
    have h2 : sampleUpperCase (97 :: units "undefined") = units "AUNDEFINED" := by decide
    rw [h2]
